import Mathlib

/-!
Verification of the QPanda-lite noisy state-vector simulator core
(`QPandaLiteCpp/src/noisy_simulator.cpp` together with the declarations in
`simulator.h` and the older header fragment shipping `string_to_NoiseType` /
`string_to_SupportOperationType`).

Modelling conventions:
* IEEE-754 doubles are modelled as exact rationals (`ℚ`); a complex amplitude
  is an exact pair `CQ`.  `std::sqrt` is an external libm call, so it is made
  an explicit function parameter `sqrtf : ℚ → ℚ`; theorems that need it to be
  a genuine square root take that as a hypothesis at the relevant points.
* `qpandalite::rand()` draws from a process-wide uniform source; each draw is
  modelled as an explicit parameter `r`, and replay threads an explicit list
  of pre-drawn values.
* C++ exceptions thrown by a member function leave the object's fields as
  they were at the throw point, so recording operations return the final
  object state together with an optional error message
  (`NSim × Option String`); pure-function failures use `Except String`.
* The gate kernels of the base `Simulator` class (`simulator_impl.cpp`) are
  not part of the given sources; they are abstracted as a `GateSet` record of
  total state transforms, with concrete Pauli/CNOT instances modelled from
  the specification where a claim needs their actual action.
-/

deriving instance DecidableEq for Except

namespace QPandaLite

/-- Complex amplitude: a pair of exact rationals modelling two C++ doubles. -/
structure CQ where
  re : ℚ
  im : ℚ
deriving DecidableEq

/-- The zero amplitude. -/
def c0 : CQ := ⟨0, 0⟩

/-- The amplitude 1. -/
def c1 : CQ := ⟨1, 0⟩

/-- `abs_sqr` of a complex amplitude: squared modulus. -/
def absSq (z : CQ) : ℚ := z.re * z.re + z.im * z.im

/-- Multiply an amplitude by a real scalar (complex * double in C++). -/
def smulQ (c : ℚ) (z : CQ) : CQ := ⟨c * z.re, c * z.im⟩

/-- Divide an amplitude by a real scalar (complex / double in C++).
Lean's `/ 0 = 0` convention stands in for the IEEE division by zero, which
the reachable uses never hit. -/
def cdivQ (z : CQ) (d : ℚ) : CQ := ⟨z.re / d, z.im / d⟩

/-- Negation of an amplitude. -/
def cneg (z : CQ) : CQ := ⟨-z.re, -z.im⟩

/-- Multiplication by the imaginary unit `i`. -/
def cmulI (z : CQ) : CQ := ⟨-z.im, z.re⟩

/-- Multiplication by `-i`. -/
def cmulNegI (z : CQ) : CQ := ⟨z.im, -z.re⟩

/-- A state vector: the `state` member of the simulator, a dense list of
`2^total_qubit` amplitudes, bit `q` of the index being qubit `q`. -/
abbrev QState := List CQ

/-- Noise tags (`enum class NoiseType`).  The four members listed in the
older header, plus `TwoQubitDepolarizing` which `noisy_simulator.cpp`
dispatches on (its numeric value lives in the missing current header; only
tag identity matters here). -/
inductive NoiseType where
  | Depolarizing
  | Damping
  | BitFlip
  | PhaseFlip
  | TwoQubitDepolarizing
deriving DecidableEq

/-- Gate tags (`enum class SupportOperationType`): exactly the tags the
`NoisySimulator` recording mutators in `noisy_simulator.cpp` emit.  Numeric
values (1000…) live in the missing current header; the tag namespace rule of
the spec keeps them disjoint from noise tags, which the sum type `OpTag`
models. -/
inductive SupportOperationType where
  | IDENTITY
  | HADAMARD
  | U22
  | X
  | Y
  | Z
  | SX
  | CZ
  | SWAP
  | ISWAP
  | XY
  | CNOT
  | RX
  | RY
  | RZ
  | RPHI90
  | RPHI180
  | RPHI
  | TOFFOLI
  | CSWAP
deriving DecidableEq

/-- The 32-bit opcode tag: a noise tag or a gate tag (disjoint ranges in the
C++ sources, hence a sum type here). -/
inductive OpTag where
  | noise (t : NoiseType)
  | gate (g : SupportOperationType)
deriving DecidableEq

/-- `struct OpcodeType`. -/
structure Opcode where
  op : OpTag
  qubits : List ℕ
  parameters : List ℚ
  dagger : Bool
  global_controller : List ℕ
deriving DecidableEq

/-- Which of the three noise-insertion strategies a simulator object uses:
the base `NoisySimulator`, `NoisySimulator_GateDependent`, or
`NoisySimulator_GateSpecificError` (virtual dispatch of `insert_error`). -/
inductive NoisePolicy where
  | global
  | gateDependent
  | gateSpecific
deriving DecidableEq

/-- The simulator object: fields of `NoisySimulator` and its two derived
classes, with `std::map`s as association lists kept in their iteration
order.  `state` is the `NoiseSimulatorImpl` member's state vector. -/
structure NSim where
  nqubit : ℕ
  noise : List (NoiseType × ℚ)
  gateDependentNoise : List (SupportOperationType × List (NoiseType × ℚ))
  gateError1q : List ((SupportOperationType × ℕ) × List (NoiseType × ℚ))
  gateError2q : List ((SupportOperationType × (ℕ × ℕ)) × List (NoiseType × ℚ))
  measurementErrorMatrices : List (ℚ × ℚ)
  state : QState
  opcodes : List Opcode
  policy : NoisePolicy
deriving DecidableEq

/-- First value bound to a key in an association list (`std::map::find`). -/
def assocFind {κ α : Type} [DecidableEq κ] (k : κ) : List (κ × α) → Option α
  | [] => none
  | e :: rest => if e.1 = k then some e.2 else assocFind k rest

/-- One `find`-and-insert step of `NoisySimulator::_load_noise` for a single
token. -/
def noiseFindToken (t : NoiseType) (tok : String) (desc : List (String × ℚ)) :
    List (NoiseType × ℚ) :=
  match assocFind tok desc with
  | some v => [(t, v)]
  | none => []

/-- `NoisySimulator::_load_noise`: looks up exactly the four tokens
`depolarizing`, `damping`, `bitflip`, `phaseflip` and records those found;
every other key of the description map is left untouched and no error path
exists in the body. -/
def loadNoise (desc : List (String × ℚ)) : List (NoiseType × ℚ) :=
  noiseFindToken .Depolarizing "depolarizing" desc ++
    noiseFindToken .Damping "damping" desc ++
    noiseFindToken .BitFlip "bitflip" desc ++
    noiseFindToken .PhaseFlip "phaseflip" desc

/-- The `NoisySimulator` constructor: stores `n_qubit` and the measurement
error matrices and runs `_load_noise`.  The body contains no validation and
no throwing call, so the result is always `Except.ok`; the `Except` wrapper
records that C++ construction could in principle fail by exception. -/
def mkNoisySimulator (n : ℕ) (desc : List (String × ℚ))
    (me : List (ℚ × ℚ)) : Except String NSim :=
  .ok ⟨n, loadNoise desc, [], [], [], me, [], [], .global⟩

/-- Build the noise opcode `_insert_global_error` / `_insert_generic_error`
emplace: tag, the given qubits, the single probability parameter, no dagger,
no controllers. -/
def mkNoiseOpcode (t : NoiseType) (qubits : List ℕ) (p : ℚ) : Opcode :=
  ⟨.noise t, qubits, [p], false, []⟩

/-- The validity test of `_insert_global_error`
(`__NoiseTypeBegin < noise_type < __NoiseTypeEnd`): per the error message the
valid general types are Depolarizing, Damping, BitFlip and PhaseFlip. -/
def noiseTypeValid : NoiseType → Bool
  | .Depolarizing => true
  | .Damping => true
  | .BitFlip => true
  | .PhaseFlip => true
  | .TwoQubitDepolarizing => false

/-- Loop of `NoisySimulator::_insert_global_error`: one opcode per noise-map
entry; an invalid entry throws mid-loop, keeping the opcodes already
appended. -/
def insertGlobalErrorLoop (qubits : List ℕ) :
    NSim → List (NoiseType × ℚ) → NSim × Option String
  | s, [] => (s, none)
  | s, e :: rest =>
    if noiseTypeValid e.1 then
      insertGlobalErrorLoop qubits
        { s with opcodes := s.opcodes ++ [mkNoiseOpcode e.1 qubits e.2] } rest
    else
      (s, some "General noise type does not belong to the following: Depolarizing Damping BitFlip PhaseFlip.")

/-- `NoisySimulator::_insert_global_error`. -/
def insertGlobalError (s : NSim) (qubits : List ℕ) : NSim × Option String :=
  insertGlobalErrorLoop qubits s s.noise

/-- `NoisySimulator::_insert_generic_error`: one opcode per entry of the
given noise map, no validity check. -/
def insertGenericError (s : NSim) (qubits : List ℕ)
    (m : List (NoiseType × ℚ)) : NSim :=
  { s with opcodes := s.opcodes ++ m.map (fun e => mkNoiseOpcode e.1 qubits e.2) }

/-- `NoisySimulator_GateDependent::_insert_gate_dependent_error`. -/
def insertGateDependentError (s : NSim) (qubits : List ℕ)
    (g : SupportOperationType) : NSim :=
  if s.gateDependentNoise = [] then s
  else
    match assocFind g s.gateDependentNoise with
    | some m => insertGenericError s qubits m
    | none => s

/-- `NoisySimulator_GateSpecificError::_insert_gate_error1q`. -/
def insertGateError1q (s : NSim) (g : SupportOperationType) (q : ℕ) : NSim :=
  if s.gateError1q = [] then s
  else
    match assocFind (g, q) s.gateError1q with
    | some m => insertGenericError s [q] m
    | none => s

/-- The crosstalk scan of `_insert_gate_error2q` when `qn2 == -1`: for every
`gate_error2q` entry whose key is `(gateType, (qn1, q2))`, append the
entry's whole noise map on `{qn1, q2}` via `_insert_generic_error`. -/
def insertGateError2qCrossLoop (g : SupportOperationType) (q : ℕ) :
    NSim → List ((SupportOperationType × (ℕ × ℕ)) × List (NoiseType × ℚ)) → NSim
  | s, [] => s
  | s, e :: rest =>
    if e.1.1 = g ∧ e.1.2.1 = q then
      insertGateError2qCrossLoop g q (insertGenericError s [q, e.1.2.2] e.2) rest
    else
      insertGateError2qCrossLoop g q s rest

/-- `NoisySimulator_GateSpecificError::_insert_gate_error2q`; `qn2 = none`
models the C++ sentinel `qn2 == (size_t)(-1)` (the 1q-gate crosstalk path). -/
def insertGateError2q (s : NSim) (g : SupportOperationType) (qn1 : ℕ)
    (qn2 : Option ℕ) : NSim :=
  if s.gateError2q = [] then s
  else
    match qn2 with
    | none => insertGateError2qCrossLoop g qn1 s s.gateError2q
    | some q2 =>
      match assocFind (g, (qn1, q2)) s.gateError2q with
      | some m => insertGenericError s [qn1, q2] m
      | none => s

/-- Modelled from the spec: `gate_qubit_count` is declared in the missing
current header; the arity of each gate follows the spec's gate catalogue
(1-qubit gates, the 2-qubit CZ/SWAP/ISWAP/XY/CNOT, the 3-qubit
Toffoli/CSWAP). -/
def gateQubitCount : SupportOperationType → ℕ
  | .CZ => 2
  | .SWAP => 2
  | .ISWAP => 2
  | .XY => 2
  | .CNOT => 2
  | .TOFFOLI => 3
  | .CSWAP => 3
  | _ => 1

/-- `insert_error`, dispatched on the simulator's class: the base class
emits only the global noise; `NoisySimulator_GateDependent` adds the
per-gate map; `NoisySimulator_GateSpecificError` dispatches on
`gate_qubit_count` and throws for any arity other than 1 or 2. -/
def insertError (s : NSim) (qubits : List ℕ) (g : SupportOperationType) :
    NSim × Option String :=
  match s.policy with
  | .global => insertGlobalError s qubits
  | .gateDependent =>
    let r := insertGlobalError s qubits
    match r.2 with
    | some e => (r.1, some e)
    | none => (insertGateDependentError r.1 qubits g, none)
  | .gateSpecific =>
    let r := insertGlobalError s qubits
    match r.2 with
    | some e => (r.1, some e)
    | none =>
      match gateQubitCount g with
      | 1 =>
        (insertGateError2q (insertGateError1q r.1 g (qubits.getD 0 0)) g
          (qubits.getD 0 0) none, none)
      | 2 =>
        let s2 := insertGateError2q r.1 g (qubits.getD 0 0) (some (qubits.getD 1 0))
        let s3 := insertGateError1q s2 g (qubits.getD 0 0)
        (insertGateError1q s3 g (qubits.getD 1 0), none)
      | _ =>
        (r.1, some "[Fatal] Error type and gate qubit count is not correctly specified, which is not as expected.")

/-- Build the gate opcode a recording mutator emplaces. -/
def mkGateOpcode (g : SupportOperationType) (qubits : List ℕ) (ps : List ℚ)
    (dag : Bool) (gc : List ℕ) : Opcode :=
  ⟨.gate g, qubits, ps, dag, gc⟩

/-- Common body of every recording mutator: append the gate opcode, then run
the policy's `insert_error` on the same qubits. -/
def recordGate (s : NSim) (g : SupportOperationType) (qubits : List ℕ)
    (ps : List ℚ) (gc : List ℕ) (dag : Bool) : NSim × Option String :=
  insertError { s with opcodes := s.opcodes ++ [mkGateOpcode g qubits ps dag gc] }
    qubits g

namespace NSim

/-- `NoisySimulator::id`. -/
def id (s : NSim) (qn : ℕ) (gc : List ℕ) (dag : Bool) : NSim × Option String :=
  recordGate s .IDENTITY [qn] [] gc dag

/-- `NoisySimulator::hadamard`. -/
def hadamard (s : NSim) (qn : ℕ) (gc : List ℕ) (dag : Bool) : NSim × Option String :=
  recordGate s .HADAMARD [qn] [] gc dag

/-- `NoisySimulator::u22` (the unitary flattened into eight parameters). -/
def u22 (s : NSim) (qn : ℕ) (u : CQ × CQ × CQ × CQ) (gc : List ℕ) (dag : Bool) :
    NSim × Option String :=
  recordGate s .U22 [qn]
    [u.1.re, u.1.im, u.2.1.re, u.2.1.im, u.2.2.1.re, u.2.2.1.im, u.2.2.2.re, u.2.2.2.im]
    gc dag

/-- `NoisySimulator::x`. -/
def x (s : NSim) (qn : ℕ) (gc : List ℕ) (dag : Bool) : NSim × Option String :=
  recordGate s .X [qn] [] gc dag

/-- `NoisySimulator::y`. -/
def y (s : NSim) (qn : ℕ) (gc : List ℕ) (dag : Bool) : NSim × Option String :=
  recordGate s .Y [qn] [] gc dag

/-- `NoisySimulator::z`. -/
def z (s : NSim) (qn : ℕ) (gc : List ℕ) (dag : Bool) : NSim × Option String :=
  recordGate s .Z [qn] [] gc dag

/-- `NoisySimulator::sx`. -/
def sx (s : NSim) (qn : ℕ) (gc : List ℕ) (dag : Bool) : NSim × Option String :=
  recordGate s .SX [qn] [] gc dag

/-- `NoisySimulator::cz`. -/
def cz (s : NSim) (qn1 qn2 : ℕ) (gc : List ℕ) (dag : Bool) : NSim × Option String :=
  recordGate s .CZ [qn1, qn2] [] gc dag

/-- `NoisySimulator::swap`. -/
def swap (s : NSim) (qn1 qn2 : ℕ) (gc : List ℕ) (dag : Bool) : NSim × Option String :=
  recordGate s .SWAP [qn1, qn2] [] gc dag

/-- `NoisySimulator::xy`. -/
def xy (s : NSim) (qn1 qn2 : ℕ) (theta : ℚ) (gc : List ℕ) (dag : Bool) :
    NSim × Option String :=
  recordGate s .XY [qn1, qn2] [theta] gc dag

/-- `NoisySimulator::iswap`. -/
def iswap (s : NSim) (qn1 qn2 : ℕ) (gc : List ℕ) (dag : Bool) : NSim × Option String :=
  recordGate s .ISWAP [qn1, qn2] [] gc dag

/-- `NoisySimulator::cnot`. -/
def cnot (s : NSim) (controller target : ℕ) (gc : List ℕ) (dag : Bool) :
    NSim × Option String :=
  recordGate s .CNOT [controller, target] [] gc dag

/-- `NoisySimulator::rx`. -/
def rx (s : NSim) (qn : ℕ) (theta : ℚ) (gc : List ℕ) (dag : Bool) :
    NSim × Option String :=
  recordGate s .RX [qn] [theta] gc dag

/-- `NoisySimulator::ry`. -/
def ry (s : NSim) (qn : ℕ) (theta : ℚ) (gc : List ℕ) (dag : Bool) :
    NSim × Option String :=
  recordGate s .RY [qn] [theta] gc dag

/-- `NoisySimulator::rz`. -/
def rz (s : NSim) (qn : ℕ) (theta : ℚ) (gc : List ℕ) (dag : Bool) :
    NSim × Option String :=
  recordGate s .RZ [qn] [theta] gc dag

/-- `NoisySimulator::rphi90`. -/
def rphi90 (s : NSim) (qn : ℕ) (phi : ℚ) (gc : List ℕ) (dag : Bool) :
    NSim × Option String :=
  recordGate s .RPHI90 [qn] [phi] gc dag

/-- `NoisySimulator::rphi180`. -/
def rphi180 (s : NSim) (qn : ℕ) (phi : ℚ) (gc : List ℕ) (dag : Bool) :
    NSim × Option String :=
  recordGate s .RPHI180 [qn] [phi] gc dag

/-- `NoisySimulator::rphi`. -/
def rphi (s : NSim) (qn : ℕ) (phi theta : ℚ) (gc : List ℕ) (dag : Bool) :
    NSim × Option String :=
  recordGate s .RPHI [qn] [phi, theta] gc dag

/-- `NoisySimulator::toffoli`. -/
def toffoli (s : NSim) (qn1 qn2 target : ℕ) (gc : List ℕ) (dag : Bool) :
    NSim × Option String :=
  recordGate s .TOFFOLI [qn1, qn2, target] [] gc dag

/-- `NoisySimulator::cswap`. -/
def cswap (s : NSim) (controller target1 target2 : ℕ) (gc : List ℕ) (dag : Bool) :
    NSim × Option String :=
  recordGate s .CSWAP [controller, target1, target2] [] gc dag

end NSim

/-- `string_to_SupportOperationType`, for the tags the `NoisySimulator`
records.  The older header in the sources carries sixteen of the tokens; the
current header is missing, so the remaining four recordable tokens
(IDENTITY, SWAP, TOFFOLI, CSWAP) follow the spec's case-sensitive token
list.  Unknown strings throw, naming the offending string. -/
def stringToSupportOperationType (s : String) : Except String SupportOperationType :=
  if s = "HADAMARD" then .ok .HADAMARD
  else if s = "U22" then .ok .U22
  else if s = "X" then .ok .X
  else if s = "Y" then .ok .Y
  else if s = "Z" then .ok .Z
  else if s = "SX" then .ok .SX
  else if s = "CZ" then .ok .CZ
  else if s = "ISWAP" then .ok .ISWAP
  else if s = "XY" then .ok .XY
  else if s = "CNOT" then .ok .CNOT
  else if s = "RX" then .ok .RX
  else if s = "RY" then .ok .RY
  else if s = "RZ" then .ok .RZ
  else if s = "RPHI90" then .ok .RPHI90
  else if s = "RPHI180" then .ok .RPHI180
  else if s = "RPHI" then .ok .RPHI
  else if s = "IDENTITY" then .ok .IDENTITY
  else if s = "SWAP" then .ok .SWAP
  else if s = "TOFFOLI" then .ok .TOFFOLI
  else if s = "CSWAP" then .ok .CSWAP
  else .error ("Failed to handle gate_str: " ++ s ++ "\nPlease check.")

/-- `string_to_NoiseType` from the header fragment in the sources: the four
global-noise tokens; anything else throws, naming the offending string. -/
def stringToNoiseType (s : String) : Except String NoiseType :=
  if s = "depolarizing" then .ok .Depolarizing
  else if s = "damping" then .ok .Damping
  else if s = "bitflip" then .ok .BitFlip
  else if s = "phaseflip" then .ok .PhaseFlip
  else .error ("Failed to handle noise_str: " ++ s ++ "\nPlease check.")

/-- `NoisySimulator::load_opcode`: parse the gate token (which can throw
before anything is appended), then append the gate opcode and run
`insert_error`. -/
def NSim.load_opcode (s : NSim) (opstr : String) (qubits : List ℕ)
    (ps : List ℚ) (dag : Bool) (gc : List ℕ) : NSim × Option String :=
  match stringToSupportOperationType opstr with
  | .error e => (s, some e)
  | .ok g => insertError { s with opcodes := s.opcodes ++ [⟨.gate g, qubits, ps, dag, gc⟩] } qubits g

/-- One recording-operation call: any of the twenty gate mutators or
`load_opcode`, with its arguments. -/
inductive RecordingCall where
  | id (qn : ℕ) (gc : List ℕ) (dag : Bool)
  | hadamard (qn : ℕ) (gc : List ℕ) (dag : Bool)
  | u22 (qn : ℕ) (u : CQ × CQ × CQ × CQ) (gc : List ℕ) (dag : Bool)
  | x (qn : ℕ) (gc : List ℕ) (dag : Bool)
  | y (qn : ℕ) (gc : List ℕ) (dag : Bool)
  | z (qn : ℕ) (gc : List ℕ) (dag : Bool)
  | sx (qn : ℕ) (gc : List ℕ) (dag : Bool)
  | cz (qn1 qn2 : ℕ) (gc : List ℕ) (dag : Bool)
  | swap (qn1 qn2 : ℕ) (gc : List ℕ) (dag : Bool)
  | xy (qn1 qn2 : ℕ) (theta : ℚ) (gc : List ℕ) (dag : Bool)
  | iswap (qn1 qn2 : ℕ) (gc : List ℕ) (dag : Bool)
  | cnot (controller target : ℕ) (gc : List ℕ) (dag : Bool)
  | rx (qn : ℕ) (theta : ℚ) (gc : List ℕ) (dag : Bool)
  | ry (qn : ℕ) (theta : ℚ) (gc : List ℕ) (dag : Bool)
  | rz (qn : ℕ) (theta : ℚ) (gc : List ℕ) (dag : Bool)
  | rphi90 (qn : ℕ) (phi : ℚ) (gc : List ℕ) (dag : Bool)
  | rphi180 (qn : ℕ) (phi : ℚ) (gc : List ℕ) (dag : Bool)
  | rphi (qn : ℕ) (phi theta : ℚ) (gc : List ℕ) (dag : Bool)
  | toffoli (qn1 qn2 target : ℕ) (gc : List ℕ) (dag : Bool)
  | cswap (controller target1 target2 : ℕ) (gc : List ℕ) (dag : Bool)
  | loadOpcode (opstr : String) (qubits : List ℕ) (ps : List ℚ) (dag : Bool) (gc : List ℕ)

/-- Apply a recording call to a simulator object. -/
def applyRecording (c : RecordingCall) (s : NSim) : NSim × Option String :=
  match c with
  | .id qn gc dag => s.id qn gc dag
  | .hadamard qn gc dag => s.hadamard qn gc dag
  | .u22 qn u gc dag => s.u22 qn u gc dag
  | .x qn gc dag => s.x qn gc dag
  | .y qn gc dag => s.y qn gc dag
  | .z qn gc dag => s.z qn gc dag
  | .sx qn gc dag => s.sx qn gc dag
  | .cz a b gc dag => s.cz a b gc dag
  | .swap a b gc dag => s.swap a b gc dag
  | .xy a b t gc dag => s.xy a b t gc dag
  | .iswap a b gc dag => s.iswap a b gc dag
  | .cnot a b gc dag => s.cnot a b gc dag
  | .rx qn t gc dag => s.rx qn t gc dag
  | .ry qn t gc dag => s.ry qn t gc dag
  | .rz qn t gc dag => s.rz qn t gc dag
  | .rphi90 qn t gc dag => s.rphi90 qn t gc dag
  | .rphi180 qn t gc dag => s.rphi180 qn t gc dag
  | .rphi qn a b gc dag => s.rphi qn a b gc dag
  | .toffoli a b c gc dag => s.toffoli a b c gc dag
  | .cswap a b c gc dag => s.cswap a b c gc dag
  | .loadOpcode o q p d g => s.load_opcode o q p d g

/-- Modelled from the spec: the gate kernels of the base `Simulator` class
live in `simulator_impl.cpp`, which is not among the given sources.  They
are abstracted as a record of total state transforms (qubit arguments,
real parameters, `global_controller`, `is_dagger`, state in, state out),
exactly the shapes `execute_once` calls them with. -/
structure GateSet where
  hadamard : ℕ → List ℕ → Bool → QState → QState
  x : ℕ → List ℕ → Bool → QState → QState
  sx : ℕ → List ℕ → Bool → QState → QState
  y : ℕ → List ℕ → Bool → QState → QState
  z : ℕ → List ℕ → Bool → QState → QState
  rx : ℕ → ℚ → List ℕ → Bool → QState → QState
  ry : ℕ → ℚ → List ℕ → Bool → QState → QState
  rz : ℕ → ℚ → List ℕ → Bool → QState → QState
  cz : ℕ → ℕ → List ℕ → Bool → QState → QState
  cnot : ℕ → ℕ → List ℕ → Bool → QState → QState
  iswap : ℕ → ℕ → List ℕ → Bool → QState → QState
  xy : ℕ → ℕ → ℚ → List ℕ → Bool → QState → QState
  rphi90 : ℕ → ℚ → List ℕ → Bool → QState → QState
  rphi180 : ℕ → ℚ → List ℕ → Bool → QState → QState
  rphi : ℕ → ℚ → ℚ → List ℕ → Bool → QState → QState
  toffoli : ℕ → ℕ → ℕ → List ℕ → Bool → QState → QState
  cswap : ℕ → ℕ → ℕ → List ℕ → Bool → QState → QState

/-- `NoiseSimulatorImpl::depolarizing(qn, p)` with the uniform draw `r`
made explicit: `if (r > p) return; if (r < p/3) x(qn); else if (r < p/3*2)
y(qn); else z(qn);` — the base-class Pauli kernels are called with their
default arguments (no controllers, no dagger). -/
def depolarizingK (gs : GateSet) (qn : ℕ) (p r : ℚ) (st : QState) : QState :=
  if r > p then st
  else if r < p / 3 then gs.x qn [] false st
  else if r < p / 3 * 2 then gs.y qn [] false st
  else gs.z qn [] false st

/-- `NoiseSimulatorImpl::bitflip(qn, p)`. -/
def bitflipK (gs : GateSet) (qn : ℕ) (p r : ℚ) (st : QState) : QState :=
  if r > p then st else gs.x qn [] false st

/-- `NoiseSimulatorImpl::phaseflip(qn, p)`. -/
def phaseflipK (gs : GateSet) (qn : ℕ) (p r : ℚ) (st : QState) : QState :=
  if r > p then st else gs.z qn [] false st

/-- `NoiseSimulatorImpl::twoqubit_depolarizing(qn1, qn2, p)`: draw `r`; if
`r > p` no-op, else `depol_case = int(15 r / p) + 1` selects a Pauli pair
(`int` truncation equals the floor on this nonnegative domain).  The two
`switch` statements have unreachable `default: ThrowRuntimeError("?????")`
arms, kept here as error cases. -/
def twoqubitDepolK (gs : GateSet) (qn1 qn2 : ℕ) (p r : ℚ) (st : QState) :
    Except String QState :=
  if r > p then .ok st
  else
    let depolCase : ℕ := (⌊15 * r / p⌋).toNat + 1
    do
      let st1 ←
        match depolCase % 4 with
        | 0 => .ok st
        | 1 => .ok (gs.x qn1 [] false st)
        | 2 => .ok (gs.y qn1 [] false st)
        | 3 => .ok (gs.z qn1 [] false st)
        | _ => .error "?????"
      match depolCase / 4 with
      | 0 => .ok st1
      | 1 => .ok (gs.x qn2 [] false st1)
      | 2 => .ok (gs.y qn2 [] false st1)
      | 3 => .ok (gs.z qn2 [] false st1)
      | _ => .error "?????"

/-- The `1e-10` tolerance of the Kraus probability-sum check. -/
def eps10 : ℚ := 1 / 10 ^ 10

/-- The accumulation loop of `NoiseSimulatorImpl::damping`: over all
`i < 2^total_qubit` with bit `qn` set, `p1 += abs_sqr(state[i] * E1)` and
`p0 += abs_sqr(state[i] * E0) + abs_sqr(state[i - 2^qn])`, with
`E0 = sqrt(1-p)`, `E1 = sqrt(p)`.  Result `(p0, p1)`. -/
def dampingAccum (sqrtf : ℚ → ℚ) (n qn : ℕ) (p : ℚ) (st : QState) : ℚ × ℚ :=
  (List.range (2 ^ n)).foldl
    (fun a i =>
      if i.testBit qn then
        (a.1 + (absSq (smulQ (sqrtf (1 - p)) (st.getD i c0)) +
            absSq (st.getD (i - 2 ^ qn) c0)),
          a.2 + absSq (smulQ (sqrtf p) (st.getD i c0)))
      else a)
    (0, 0)

/-- The decay (`E1`) loop of `damping`: for every `i` with bit `qn` set,
`state[i - 2^qn] = state[i]; state[i] = 0`, in increasing index order. -/
def dampingDecay (n qn : ℕ) (st : QState) : QState :=
  (List.range (2 ^ n)).foldl
    (fun s i =>
      if i.testBit qn then (s.set (i - 2 ^ qn) (s.getD i c0)).set i c0 else s)
    st

/-- The no-decay (`E0`) loop of `damping`: scale every amplitude with bit
`qn` set by `sqrt(1 - p)`. -/
def dampingScale (sqrtf : ℚ → ℚ) (n qn : ℕ) (p : ℚ) (st : QState) : QState :=
  (List.range (2 ^ n)).foldl
    (fun s i =>
      if i.testBit qn then s.set i (smulQ (sqrtf (1 - p)) (s.getD i c0)) else s)
    st

/-- The norm accumulation of `NoiseSimulatorImpl::normalize_state_vector`. -/
def sumAbsSq (st : QState) : ℚ :=
  st.foldl (fun a z => a + absSq z) 0

/-- `NoiseSimulatorImpl::normalize_state_vector`: divide every amplitude by
`sqrt(Σ |ψ[i]|²)`. -/
def normalize (sqrtf : ℚ → ℚ) (st : QState) : QState :=
  st.map (fun z => cdivQ z (sqrtf (sumAbsSq st)))

/-- `NoiseSimulatorImpl::damping(qn, p)` with the uniform draw `r` explicit:
accumulate `(p0, p1)`, throw when `|p0 + p1 - 1| > 1e-10`, otherwise take
the decay branch when `r < p1` and the scaling branch otherwise, and
renormalize in both branches. -/
def damping (sqrtf : ℚ → ℚ) (n qn : ℕ) (p r : ℚ) (st : QState) :
    Except String QState :=
  if |(dampingAccum sqrtf n qn p st).1 + (dampingAccum sqrtf n qn p st).2 - 1| > eps10 then
    .error "Error: Probabilities after applying Kraus operators do not sum up to 1."
  else if r < (dampingAccum sqrtf n qn p st).2 then
    .ok (normalize sqrtf (dampingDecay n qn st))
  else
    .ok (normalize sqrtf (dampingScale sqrtf n qn p st))

/-- The loop of `NoisySimulator::get_measure_no_readout_error`: walk the
amplitudes; return the current index when `r < |ψ[i]|²`, otherwise subtract
`|ψ[i]|²` from `r` and continue; throw after the last index. -/
def getMeasureLoop (r : ℚ) : QState → Except String ℕ
  | [] => .error "NoisySimulator::get_measure() internal fatal error!"
  | zamp :: rest =>
    if r < absSq zamp then .ok 0
    else (getMeasureLoop (r - absSq zamp) rest).map (· + 1)

/-- `NoisySimulator::get_measure_no_readout_error` with the uniform draw
explicit (the state has `2^total_qubit` entries, walked in index order). -/
def getMeasureNoReadoutError (st : QState) (r : ℚ) : Except String ℕ :=
  getMeasureLoop r st

/-- `StatevectorSimulator::max_qubit_num` (`simulator.h`). -/
def maxQubitNum : ℕ := 30

/-- Modelled from the spec: `init_n_qubit` lives in the missing
`simulator_impl` sources; per the spec it produces `ψ[0] = 1, ψ[i>0] = 0`
over `2^n` amplitudes and the `n ≤ 30` bound of `max_qubit_num` is where
qubit counts are enforced. -/
def initNQubit (n : ℕ) : Except String QState :=
  if n > maxQubitNum then .error "Exceed max_qubit_num"
  else .ok (List.ofFn (fun i : Fin (2 ^ n) => if (i : ℕ) = 0 then c1 else c0))

/-- One dispatch step of `NoisySimulator::execute_once` on a single opcode,
threading the state vector and the list of not-yet-consumed uniform draws.
Noise opcodes loop over their qubit list, drawing once per kernel call.
The `CNOT` arm reproduces the source exactly: it calls
`simulator.cnot(qubits[0], qubits[1])`, i.e. with the default empty
controller set and `is_dagger = false`, dropping the recorded
`global_controller` and `dagger` fields.  Tags with no arm fall to the
default `ThrowRuntimeError`. -/
def execOp (gs : GateSet) (sqrtf : ℚ → ℚ) (n : ℕ) (acc : QState × List ℚ)
    (op : Opcode) : Except String (QState × List ℚ) :=
  match op.op with
  | .noise .Depolarizing =>
    .ok (op.qubits.foldl
      (fun a q => (depolarizingK gs q (op.parameters.getD 0 0) (a.2.headD 0) a.1, a.2.tail))
      acc)
  | .noise .Damping =>
    op.qubits.foldlM
      (fun a q =>
        (damping sqrtf n q (op.parameters.getD 0 0) (a.2.headD 0) a.1).map
          (fun st => (st, a.2.tail)))
      acc
  | .noise .BitFlip =>
    .ok (op.qubits.foldl
      (fun a q => (bitflipK gs q (op.parameters.getD 0 0) (a.2.headD 0) a.1, a.2.tail))
      acc)
  | .noise .PhaseFlip =>
    .ok (op.qubits.foldl
      (fun a q => (phaseflipK gs q (op.parameters.getD 0 0) (a.2.headD 0) a.1, a.2.tail))
      acc)
  | .noise .TwoQubitDepolarizing =>
    if op.qubits.length ≠ 2 then
      .error "The TwoQubitDepolarizing is not correctly applied."
    else
      (twoqubitDepolK gs (op.qubits.getD 0 0) (op.qubits.getD 1 0)
          (op.parameters.getD 0 0) (acc.2.headD 0) acc.1).map
        (fun st => (st, acc.2.tail))
  | .gate .HADAMARD =>
    .ok (gs.hadamard (op.qubits.getD 0 0) op.global_controller op.dagger acc.1, acc.2)
  | .gate .X =>
    .ok (gs.x (op.qubits.getD 0 0) op.global_controller op.dagger acc.1, acc.2)
  | .gate .SX =>
    .ok (gs.sx (op.qubits.getD 0 0) op.global_controller op.dagger acc.1, acc.2)
  | .gate .Y =>
    .ok (gs.y (op.qubits.getD 0 0) op.global_controller op.dagger acc.1, acc.2)
  | .gate .Z =>
    .ok (gs.z (op.qubits.getD 0 0) op.global_controller op.dagger acc.1, acc.2)
  | .gate .RX =>
    .ok (gs.rx (op.qubits.getD 0 0) (op.parameters.getD 0 0) op.global_controller op.dagger acc.1, acc.2)
  | .gate .RY =>
    .ok (gs.ry (op.qubits.getD 0 0) (op.parameters.getD 0 0) op.global_controller op.dagger acc.1, acc.2)
  | .gate .RZ =>
    .ok (gs.rz (op.qubits.getD 0 0) (op.parameters.getD 0 0) op.global_controller op.dagger acc.1, acc.2)
  | .gate .CZ =>
    .ok (gs.cz (op.qubits.getD 0 0) (op.qubits.getD 1 0) op.global_controller op.dagger acc.1, acc.2)
  | .gate .CNOT =>
    .ok (gs.cnot (op.qubits.getD 0 0) (op.qubits.getD 1 0) [] false acc.1, acc.2)
  | .gate .ISWAP =>
    .ok (gs.iswap (op.qubits.getD 0 0) (op.qubits.getD 1 0) op.global_controller op.dagger acc.1, acc.2)
  | .gate .XY =>
    .ok (gs.xy (op.qubits.getD 0 0) (op.qubits.getD 1 0) (op.parameters.getD 0 0) op.global_controller op.dagger acc.1, acc.2)
  | .gate .RPHI90 =>
    .ok (gs.rphi90 (op.qubits.getD 0 0) (op.parameters.getD 0 0) op.global_controller op.dagger acc.1, acc.2)
  | .gate .RPHI180 =>
    .ok (gs.rphi180 (op.qubits.getD 0 0) (op.parameters.getD 0 0) op.global_controller op.dagger acc.1, acc.2)
  | .gate .RPHI =>
    .ok (gs.rphi (op.qubits.getD 0 0) (op.parameters.getD 0 0) (op.parameters.getD 1 0) op.global_controller op.dagger acc.1, acc.2)
  | .gate .TOFFOLI =>
    .ok (gs.toffoli (op.qubits.getD 0 0) (op.qubits.getD 1 0) (op.qubits.getD 2 0) op.global_controller op.dagger acc.1, acc.2)
  | .gate .CSWAP =>
    .ok (gs.cswap (op.qubits.getD 0 0) (op.qubits.getD 1 0) (op.qubits.getD 2 0) op.global_controller op.dagger acc.1, acc.2)
  | _ => .error "Failed to handle opcode.\nPlease check."

/-- `NoisySimulator::execute_once`: re-initialize the state vector to
`|0…0⟩` for `nqubit` qubits, then replay the opcode stream in order. -/
def executeOnce (gs : GateSet) (sqrtf : ℚ → ℚ) (rng : List ℚ) (s : NSim) :
    Except String (QState × List ℚ) := do
  let st0 ← initNQubit s.nqubit
  s.opcodes.foldlM (execOp gs sqrtf s.nqubit) (st0, rng)

/-- Map over a list with the element index, starting at a given index
(used to express per-basis-index amplitude updates so that concrete
instances reduce by evaluation). -/
def mapIdxFrom {α β : Type} (f : ℕ → α → β) : ℕ → List α → List β
  | _, [] => []
  | i, a :: rest => f i a :: mapIdxFrom f (i + 1) rest

/-- Are all controller qubits set in basis index `i`? -/
def ctrlAll (gc : List ℕ) (i : ℕ) : Bool :=
  gc.all (fun q => i.testBit q)

/-- Modelled from the spec: the Pauli-X kernel (`Simulator::x`, missing
sources).  Per the spec's single-qubit-unitary contract, each pair
`(i0, i1 = i0 xor 2^qn)` is swapped when every controller bit is set;
`X` is Hermitian, so `is_dagger` does not change its action. -/
def specPauliX (qn : ℕ) (gc : List ℕ) (_dag : Bool) (st : QState) : QState :=
  mapIdxFrom (fun i a => if ctrlAll gc i then st.getD (i ^^^ 2 ^ qn) c0 else a) 0 st

/-- Modelled from the spec: the Pauli-Y kernel (`Simulator::y`, missing
sources), `Y = [[0, -i], [i, 0]]`; Hermitian, so `is_dagger` is
irrelevant. -/
def specPauliY (qn : ℕ) (gc : List ℕ) (_dag : Bool) (st : QState) : QState :=
  mapIdxFrom (fun i a =>
    if ctrlAll gc i then
      if i.testBit qn then cmulI (st.getD (i ^^^ 2 ^ qn) c0)
      else cmulNegI (st.getD (i ^^^ 2 ^ qn) c0)
    else a) 0 st

/-- Modelled from the spec: the Pauli-Z kernel (`Simulator::z`, missing
sources): negate the amplitudes with bit `qn` set; Hermitian. -/
def specPauliZ (qn : ℕ) (gc : List ℕ) (_dag : Bool) (st : QState) : QState :=
  mapIdxFrom (fun i a => if ctrlAll gc i && i.testBit qn then cneg a else a) 0 st

/-- Modelled from the spec: the CNOT kernel (`Simulator::cnot`, missing
sources): `|1⟩⟨1| ⊗ X + |0⟩⟨0| ⊗ I` with the first argument as control,
firing only where every `global_controller` bit is set; CNOT is Hermitian,
so `is_dagger` does not change its action. -/
def specCnot (controller target : ℕ) (gc : List ℕ) (_dag : Bool) (st : QState) :
    QState :=
  mapIdxFrom (fun i a =>
    if ctrlAll gc i && i.testBit controller then st.getD (i ^^^ 2 ^ target) c0
    else a) 0 st

/-- A gate set whose kernels all leave the state unchanged: used to
instantiate theorems that hold for every `GateSet`. -/
def trivialGateSet : GateSet where
  hadamard := fun _ _ _ st => st
  x := fun _ _ _ st => st
  sx := fun _ _ _ st => st
  y := fun _ _ _ st => st
  z := fun _ _ _ st => st
  rx := fun _ _ _ _ st => st
  ry := fun _ _ _ _ st => st
  rz := fun _ _ _ _ st => st
  cz := fun _ _ _ _ st => st
  cnot := fun _ _ _ _ st => st
  iswap := fun _ _ _ _ st => st
  xy := fun _ _ _ _ _ st => st
  rphi90 := fun _ _ _ _ st => st
  rphi180 := fun _ _ _ _ st => st
  rphi := fun _ _ _ _ _ st => st
  toffoli := fun _ _ _ _ _ st => st
  cswap := fun _ _ _ _ _ st => st

/-- The trivial gate set with the spec-modelled Pauli and CNOT kernels
plugged in (the kernels the settled claims actually evaluate). -/
def pauliGateSet : GateSet :=
  { trivialGateSet with
    x := specPauliX
    y := specPauliY
    z := specPauliZ
    cnot := specCnot }

/-- Did a fallible computation succeed? -/
def exceptIsOk {α : Type} : Except String α → Bool
  | .ok _ => true
  | .error _ => false

/-- Sum of squared moduli of the first `i` amplitudes. -/
def absSqTake (st : QState) (i : ℕ) : ℚ :=
  ((st.take i).map absSq).sum

theorem absSqTake_zero (st : QState) : absSqTake st 0 = 0 := rfl

theorem absSqTake_cons_succ (zamp : CQ) (rest : QState) (j : ℕ) :
    absSqTake (zamp :: rest) (j + 1) = absSq zamp + absSqTake rest j := by
  simp [absSqTake]

theorem exceptMap_ok {ε α β : Type} (f : α → β) (e : Except ε α) (b : β) :
    e.map f = .ok b ↔ ∃ a, e = .ok a ∧ f a = b := by
  cases e <;> simp [Except.map]

theorem exceptIsOk_map {α β : Type} (f : α → β) (e : Except String α) :
    exceptIsOk (e.map f) = exceptIsOk e := by
  cases e <;> rfl

theorem getMeasureLoop_ok_iff (st : QState) : ∀ (r : ℚ) (i : ℕ),
    getMeasureLoop r st = .ok i ↔
      i < st.length ∧ r - absSqTake st i < absSq (st.getD i c0) ∧
        ∀ k, k < i → ¬ (r - absSqTake st k < absSq (st.getD k c0)) := by
  induction st with
  | nil =>
    intro r i
    simp [getMeasureLoop]
  | cons zamp rest ih =>
    intro r i
    rw [getMeasureLoop]
    by_cases h : r < absSq zamp
    · rw [if_pos h]
      cases i with
      | zero => simpa [absSqTake_zero] using h
      | succ j =>
        constructor
        · intro hc; exact absurd (Except.ok.inj hc) (Nat.succ_ne_zero j).symm
        · rintro ⟨-, -, hall⟩
          exact absurd h (by simpa [absSqTake_zero] using hall 0 (Nat.succ_pos j))
    · rw [if_neg h, exceptMap_ok]
      constructor
      · rintro ⟨j, hj, rfl⟩
        obtain ⟨h1, h2, h3⟩ := (ih (r - absSq zamp) j).mp hj
        refine ⟨Nat.succ_lt_succ h1, ?_, ?_⟩
        · simpa [absSqTake_cons_succ, sub_sub] using h2
        · intro k hk
          cases k with
          | zero => simpa [absSqTake_zero] using h
          | succ k2 =>
            have := h3 k2 (Nat.lt_of_succ_lt_succ hk)
            simpa [absSqTake_cons_succ, sub_sub] using this
      · rintro ⟨hlen, hcond, hall⟩
        cases i with
        | zero => exact absurd (by simpa [absSqTake_zero] using hcond) h
        | succ j =>
          refine ⟨j, (ih _ j).mpr ⟨Nat.lt_of_succ_lt_succ hlen, ?_, ?_⟩, rfl⟩
          · simpa [absSqTake_cons_succ, sub_sub] using hcond
          · intro k hk
            have := hall (k + 1) (Nat.succ_lt_succ hk)
            simpa [absSqTake_cons_succ, sub_sub] using this

theorem getMeasureLoop_error_iff (st : QState) : ∀ r : ℚ,
    exceptIsOk (getMeasureLoop r st) = false ↔
      ∀ i, i < st.length → ¬ (r - absSqTake st i < absSq (st.getD i c0)) := by
  induction st with
  | nil =>
    intro r
    simp [getMeasureLoop, exceptIsOk]
  | cons zamp rest ih =>
    intro r
    rw [getMeasureLoop]
    by_cases h : r < absSq zamp
    · rw [if_pos h]
      constructor
      · intro hc; exact absurd hc (by simp [exceptIsOk])
      · intro hall
        exact absurd h (by simpa [absSqTake_zero] using hall 0 (Nat.succ_pos rest.length))
    · rw [if_neg h, exceptIsOk_map]
      rw [ih (r - absSq zamp)]
      constructor
      · intro hall i hi
        cases i with
        | zero => simpa [absSqTake_zero] using h
        | succ j =>
          have := hall j (Nat.lt_of_succ_lt_succ hi)
          simpa [absSqTake_cons_succ, sub_sub] using this
      · intro hall j hj
        have := hall (j + 1) (Nat.succ_lt_succ hj)
        simpa [absSqTake_cons_succ, sub_sub] using this

/-- C2 (amended): the basis-index sampler returns the first index `i` whose
remaining draw `r - Σ_{j<i} |ψ[j]|²` is STRICTLY below `|ψ[i]|²` (the source
tests `r < |ψ[i]|²` before subtracting, so it stops when the remainder after
subtraction would become strictly negative, not merely non-positive), and it
fails with the runtime-error exactly when no index of the `2^n`-entry state
satisfies that strict test. -/
theorem C2_sampler_characterization (st : QState) (r : ℚ) :
    (∀ i, getMeasureNoReadoutError st r = .ok i ↔
        i < st.length ∧ r - absSqTake st i < absSq (st.getD i c0) ∧
          ∀ k, k < i → ¬ (r - absSqTake st k < absSq (st.getD k c0))) ∧
    (exceptIsOk (getMeasureNoReadoutError st r) = false ↔
        ∀ i, i < st.length → ¬ (r - absSqTake st i < absSq (st.getD i c0))) :=
  ⟨fun i => getMeasureLoop_ok_iff st r i, getMeasureLoop_error_iff st r⟩

/-- C2 (counterexample to the claim as stated): on the normalized state
`ψ = [(1/2 + i/2), (1/2 + i/2)]` with draw `r = 1/2`, subtracting
`|ψ[0]|² = 1/2` makes the remainder exactly `0`, i.e. non-positive, so the
claim ("until the remainder becomes non-positive, return that last i")
selects index 0 — but the code returns index 1, because its test
`r < |ψ[i]|²` is strict. -/
theorem C2_sampler_boundary_counterexample :
    getMeasureNoReadoutError [⟨1/2, 1/2⟩, ⟨1/2, 1/2⟩] (1/2) = .ok 1 ∧
      (1 / 2 : ℚ) - absSq ⟨1/2, 1/2⟩ ≤ 0 := by
  refine ⟨?_, by norm_num [absSq]⟩
  norm_num [getMeasureNoReadoutError, getMeasureLoop, absSq, Except.map]

/-- C3 (amended): the depolarizing channel leaves the state unchanged iff
`r > p` (strictly); for `r ≤ p` it applies `X` when `r < p/3`, `Y` when
`p/3 ≤ r < 2p/3`, and `Z` otherwise — in particular at the boundary
`r = p` exactly, `Z` is applied (not nothing, as the claim's `r ≥ p`
reading would have it). -/
theorem C3_depolarizing_branches (gs : GateSet) (qn : ℕ) (p r : ℚ)
    (st : QState) (hp : 0 ≤ p) :
    (r > p → depolarizingK gs qn p r st = st) ∧
    (¬ r > p → r < p / 3 → depolarizingK gs qn p r st = gs.x qn [] false st) ∧
    (¬ r > p → ¬ r < p / 3 → r < 2 * p / 3 →
      depolarizingK gs qn p r st = gs.y qn [] false st) ∧
    (¬ r > p → ¬ r < 2 * p / 3 →
      depolarizingK gs qn p r st = gs.z qn [] false st) ∧
    (r = p → depolarizingK gs qn p r st = gs.z qn [] false st) := by
  refine ⟨?_, ?_, ?_, ?_, ?_⟩ <;> unfold depolarizingK
  · intro h; rw [if_pos h]
  · intro h1 h2; rw [if_neg h1, if_pos h2]
  · intro h1 h2 h3
    rw [if_neg h1, if_neg h2, if_pos (by linarith)]
  · intro h1 h2
    rw [if_neg h1, if_neg (by intro hc; exact h2 (by linarith)),
      if_neg (by intro hc; exact h2 (by linarith))]
  · rintro rfl
    rw [if_neg (lt_irrefl _), if_neg (by intro hc; linarith),
      if_neg (by intro hc; linarith)]

/-- C3 (witness): the amended depolarizing characterization instantiated at
the Pauli gate set, qubit 0, `p = r = 1/2` on the state `|1⟩`. -/
theorem C3_depolarizing_branches_witness :
    (0 : ℚ) ≤ 1 / 2 ∧
      ((1 / 2 : ℚ) > 1 / 2 → depolarizingK pauliGateSet 0 (1/2) (1/2) [c0, c1] = [c0, c1]) ∧
      (¬ (1 / 2 : ℚ) > 1 / 2 → (1 / 2 : ℚ) < 1 / 2 / 3 →
        depolarizingK pauliGateSet 0 (1/2) (1/2) [c0, c1] = pauliGateSet.x 0 [] false [c0, c1]) ∧
      (¬ (1 / 2 : ℚ) > 1 / 2 → ¬ (1 / 2 : ℚ) < 1 / 2 / 3 → (1 / 2 : ℚ) < 2 * (1 / 2) / 3 →
        depolarizingK pauliGateSet 0 (1/2) (1/2) [c0, c1] = pauliGateSet.y 0 [] false [c0, c1]) ∧
      (¬ (1 / 2 : ℚ) > 1 / 2 → ¬ (1 / 2 : ℚ) < 2 * (1 / 2) / 3 →
        depolarizingK pauliGateSet 0 (1/2) (1/2) [c0, c1] = pauliGateSet.z 0 [] false [c0, c1]) ∧
      ((1 / 2 : ℚ) = 1 / 2 →
        depolarizingK pauliGateSet 0 (1/2) (1/2) [c0, c1] = pauliGateSet.z 0 [] false [c0, c1]) :=
  ⟨by norm_num, C3_depolarizing_branches pauliGateSet 0 (1/2) (1/2) [c0, c1] (by norm_num)⟩

/-- C3 (counterexample to the claim as stated): the claim says that at
`r ≥ p` — in particular at `r = p` exactly — nothing is applied; but the
source only returns when `r > p`, so at `p = r = 1/2` on `|1⟩` the `Z`
branch fires and the state changes sign. -/
theorem C3_depolarizing_boundary_counterexample :
    depolarizingK pauliGateSet 0 (1/2) (1/2) [c0, c1] ≠ [c0, c1] := by
  norm_num [depolarizingK, pauliGateSet, trivialGateSet, specPauliZ, mapIdxFrom,
    ctrlAll, cneg, c0, c1]

/-- C6 (counterexample to the claim as stated): constructing with the
description `{"twoqubit_depolarizing" ↦ 1/10, "unknown_noise" ↦ 1/5}`
succeeds and records NO noise at all: `_load_noise` silently ignores both
the `twoqubit_depolarizing` token (which the claim says is accepted and
recorded) and the unknown token (which the claim says raises a
runtime-error). -/
theorem C6_loader_ignores_unknown_counterexample :
    mkNoisySimulator 2 [("twoqubit_depolarizing", 1/10), ("unknown_noise", 1/5)] [] =
      .ok ⟨2, [], [], [], [], [], [], [], .global⟩ := by
  decide

theorem assocFind_append {κ α : Type} [DecidableEq κ] (k : κ)
    (l1 l2 : List (κ × α)) :
    assocFind k (l1 ++ l2) =
      match assocFind k l1 with
      | some v => some v
      | none => assocFind k l2 := by
  induction l1 with
  | nil => rfl
  | cons e rest ih =>
    by_cases h : e.1 = k
    · simp [assocFind, h]
    · simp [assocFind, h, ih]

/-- C6 (amended): the constructor's global-noise loader recognizes exactly
the four tokens `depolarizing`, `damping`, `bitflip`, `phaseflip` and
records their probabilities; every other key — including
`twoqubit_depolarizing` — is silently ignored, and construction never
fails.  (The `string_to_NoiseType` parser used by the gate-dependent and
gate-specific loaders is where an unknown noise token raises, naming the
offending string.) -/
theorem C6_load_noise_amended (desc : List (String × ℚ)) :
    assocFind NoiseType.Depolarizing (loadNoise desc) = assocFind "depolarizing" desc ∧
    assocFind NoiseType.Damping (loadNoise desc) = assocFind "damping" desc ∧
    assocFind NoiseType.BitFlip (loadNoise desc) = assocFind "bitflip" desc ∧
    assocFind NoiseType.PhaseFlip (loadNoise desc) = assocFind "phaseflip" desc ∧
    assocFind NoiseType.TwoQubitDepolarizing (loadNoise desc) = none ∧
    (∀ n me, exceptIsOk (mkNoisySimulator n desc me) = true) ∧
    (∀ tok : String, tok ≠ "depolarizing" → tok ≠ "damping" → tok ≠ "bitflip" →
      tok ≠ "phaseflip" → exceptIsOk (stringToNoiseType tok) = false) := by
  refine ⟨?_, ?_, ?_, ?_, ?_, fun n me => rfl, ?_⟩ <;>
    first
    | (intro tok ha hb hc hd
       simp [stringToNoiseType, ha, hb, hc, hd, exceptIsOk])
    | (rcases h1 : assocFind "depolarizing" desc with - | v1 <;>
        rcases h2 : assocFind "damping" desc with - | v2 <;>
          rcases h3 : assocFind "bitflip" desc with - | v3 <;>
            rcases h4 : assocFind "phaseflip" desc with - | v4 <;>
              simp [loadNoise, noiseFindToken, h1, h2, h3, h4, assocFind])

/-- C6 (witness): the amended loader characterization at a concrete
description map holding one known and one unknown token. -/
theorem C6_load_noise_amended_witness :
    assocFind NoiseType.Damping (loadNoise [("damping", 1/4), ("foo", 1/3)]) =
        assocFind "damping" [("damping", (1/4 : ℚ)), ("foo", 1/3)] ∧
      ("foo" : String) ≠ "depolarizing" ∧
      exceptIsOk (stringToNoiseType "foo") = false :=
  ⟨(C6_load_noise_amended [("damping", 1/4), ("foo", 1/3)]).2.1,
    by decide,
    (C6_load_noise_amended [("damping", 1/4), ("foo", 1/3)]).2.2.2.2.2.2 "foo"
      (by decide) (by decide) (by decide) (by decide)⟩

/-- C8 (counterexample to the claim as stated): the `NoisySimulator`
constructor body performs no qubit-count validation at all, so construction
with 31 qubits succeeds rather than failing with an invalid-argument
error. -/
theorem C8_constructor_accepts_31 :
    mkNoisySimulator 31 [] [] = .ok ⟨31, [], [], [], [], [], [], [], .global⟩ := by
  decide

/-- C8 (amended): construction succeeds for every qubit count; the limit 30
lives in `StatevectorSimulator::max_qubit_num` and is enforced when
`execute_once` re-initializes the state via `init_n_qubit`, which fails for
`n > 30` and succeeds for `n ≤ 30`. -/
theorem C8_qubit_limit_amended (n : ℕ) :
    (∀ desc me, exceptIsOk (mkNoisySimulator n desc me) = true) ∧
    (n ≤ maxQubitNum → exceptIsOk (initNQubit n) = true) ∧
    (n > maxQubitNum → exceptIsOk (initNQubit n) = false) ∧
    (∀ gs sqrtf rng s, NSim.nqubit s = n → n > maxQubitNum →
      exceptIsOk (executeOnce gs sqrtf rng s) = false) := by
  refine ⟨fun desc me => rfl, ?_, ?_, ?_⟩
  · intro h
    rw [initNQubit, if_neg (by omega)]
    rfl
  · intro h
    rw [initNQubit, if_pos h]
    rfl
  · intro gs sqrtf rng s hs h
    rw [executeOnce, hs, initNQubit, if_pos h]
    rfl

/-- C8 (witness): the amended qubit-limit statement at `n = 31` on a
concrete simulator object, and at `n = 30` for the success side. -/
theorem C8_qubit_limit_amended_witness :
    exceptIsOk (mkNoisySimulator 31 [] []) = true ∧
      ((31 : ℕ) > maxQubitNum) ∧
      exceptIsOk (initNQubit 31) = false ∧
      ((30 : ℕ) ≤ maxQubitNum) ∧
      exceptIsOk (initNQubit 30) = true ∧
      exceptIsOk (executeOnce trivialGateSet (fun x => x) []
        ⟨31, [], [], [], [], [], [], [], .global⟩) = false :=
  ⟨(C8_qubit_limit_amended 31).1 [] [],
    by decide,
    (C8_qubit_limit_amended 31).2.2.1 (by decide),
    by decide,
    (C8_qubit_limit_amended 30).2.1 (by decide),
    (C8_qubit_limit_amended 31).2.2.2 trivialGateSet (fun x => x) []
      ⟨31, [], [], [], [], [], [], [], .global⟩ rfl (by decide)⟩

theorem state_insertGenericError (s : NSim) (qs : List ℕ)
    (m : List (NoiseType × ℚ)) : (insertGenericError s qs m).state = s.state := rfl

theorem state_insertGlobalErrorLoop (qs : List ℕ) (l : List (NoiseType × ℚ)) :
    ∀ s : NSim, ((insertGlobalErrorLoop qs s l).1).state = s.state := by
  induction l with
  | nil => intro s; rfl
  | cons e rest ih =>
    intro s
    rw [insertGlobalErrorLoop]
    split
    · exact ih _
    · rfl

theorem state_insertGlobalError (s : NSim) (qs : List ℕ) :
    ((insertGlobalError s qs).1).state = s.state :=
  state_insertGlobalErrorLoop qs s.noise s

theorem state_insertGateDependentError (s : NSim) (qs : List ℕ)
    (g : SupportOperationType) : (insertGateDependentError s qs g).state = s.state := by
  rw [insertGateDependentError]
  split
  · rfl
  · split <;> rfl

theorem state_insertGateError1q (s : NSim) (g : SupportOperationType) (q : ℕ) :
    (insertGateError1q s g q).state = s.state := by
  rw [insertGateError1q]
  split
  · rfl
  · split <;> rfl

theorem state_insertGateError2qCrossLoop (g : SupportOperationType) (q : ℕ)
    (l : List ((SupportOperationType × (ℕ × ℕ)) × List (NoiseType × ℚ))) :
    ∀ s : NSim, (insertGateError2qCrossLoop g q s l).state = s.state := by
  induction l with
  | nil => intro s; rfl
  | cons e rest ih =>
    intro s
    rw [insertGateError2qCrossLoop]
    split
    · exact ih _
    · exact ih _

theorem state_insertGateError2q (s : NSim) (g : SupportOperationType) (qn1 : ℕ)
    (qn2 : Option ℕ) : (insertGateError2q s g qn1 qn2).state = s.state := by
  rw [insertGateError2q.eq_def]
  split
  · rfl
  · split
    · exact state_insertGateError2qCrossLoop g qn1 s.gateError2q s
    · split <;> rfl

theorem state_insertError (s : NSim) (qs : List ℕ) (g : SupportOperationType) :
    ((insertError s qs g).1).state = s.state := by
  rw [insertError]
  cases s.policy
  · exact state_insertGlobalError s qs
  · dsimp only
    split
    · exact state_insertGlobalError s qs
    · rw [state_insertGateDependentError, state_insertGlobalError]
  · dsimp only
    split
    · exact state_insertGlobalError s qs
    · split
      · rw [state_insertGateError2q, state_insertGateError1q, state_insertGlobalError]
      · rw [state_insertGateError1q, state_insertGateError1q,
          state_insertGateError2q, state_insertGlobalError]
      · exact state_insertGlobalError s qs

theorem state_recordGate (s : NSim) (g : SupportOperationType) (qs : List ℕ)
    (ps : List ℚ) (gc : List ℕ) (dag : Bool) :
    ((recordGate s g qs ps gc dag).1).state = s.state :=
  state_insertError _ qs g

/-- C9: every recording operation — any of the twenty gate mutators or
`load_opcode`, under any of the three noise policies carried by the
simulator object — leaves the state vector `ψ` unchanged; its side effects
are confined to the opcode stream (this holds even on the error paths, where
the returned object is the one observable after the C++ exception). -/
theorem C9_recording_preserves_state (c : RecordingCall) (s : NSim) :
    ((applyRecording c s).1).state = s.state := by
  cases c <;>
    first
    | exact state_recordGate ..
    | · rw [applyRecording, NSim.load_opcode]
        split
        · rfl
        · exact state_insertError ..

/-- The global-noise opcodes `_insert_global_error` appends for a valid
noise map: one per map entry, in iteration order. -/
def globalNoiseOps (l : List (NoiseType × ℚ)) (qs : List ℕ) : List Opcode :=
  l.map (fun e => mkNoiseOpcode e.1 qs e.2)

theorem insertGlobalErrorLoop_valid (qs : List ℕ) (l : List (NoiseType × ℚ))
    (h : ∀ e ∈ l, noiseTypeValid e.1 = true) :
    ∀ s : NSim, insertGlobalErrorLoop qs s l =
      ({ s with opcodes := s.opcodes ++ globalNoiseOps l qs }, none) := by
  induction l with
  | nil => intro s; simp [insertGlobalErrorLoop, globalNoiseOps]
  | cons e rest ih =>
    intro s
    rw [insertGlobalErrorLoop, if_pos (h e (List.mem_cons_self e rest))]
    rw [ih (fun x hx => h x (List.mem_cons_of_mem e hx))]
    simp [globalNoiseOps]

theorem insertGlobalError_valid (s : NSim) (qs : List ℕ)
    (h : ∀ e ∈ s.noise, noiseTypeValid e.1 = true) :
    insertGlobalError s qs =
      ({ s with opcodes := s.opcodes ++ globalNoiseOps s.noise qs }, none) :=
  insertGlobalErrorLoop_valid qs s.noise h s

/-- C7 (counterexample to the claim as stated): on a fresh
gate-and-qubit-specific simulator, `toffoli` raises (arity 3 has no case in
`insert_error`) yet the opcode stream is NOT as it was before the call: the
TOFFOLI gate opcode was already appended when `insert_error` threw. -/
theorem C7_toffoli_partial_append_counterexample :
    ((NSim.toffoli ⟨3, [], [], [], [], [], [], [], .gateSpecific⟩ 0 1 2 [] false).2).isSome = true ∧
      (NSim.toffoli ⟨3, [], [], [], [], [], [], [], .gateSpecific⟩ 0 1 2 [] false).1.opcodes ≠
        ([] : List Opcode) := by
  decide

theorem insertError_gateSpecific_arity3 (s : NSim) (qs : List ℕ)
    (g : SupportOperationType) (hpol : s.policy = .gateSpecific)
    (hval : ∀ e ∈ s.noise, noiseTypeValid e.1 = true)
    (h3 : gateQubitCount g = 3) :
    insertError s qs g =
      ({ s with opcodes := s.opcodes ++ globalNoiseOps s.noise qs },
        some "[Fatal] Error type and gate qubit count is not correctly specified, which is not as expected.") := by
  rw [insertError]
  nth_rewrite 1 [hpol]
  dsimp only
  rw [insertGlobalError_valid s qs hval]
  dsimp only
  rw [h3]

/-- C7 (amended): a recording-time error raised by the gate-name parser in
`load_opcode` occurs before anything is appended, so it leaves the opcode
stream (indeed the whole object) unchanged; but the gate mutators append the
gate opcode BEFORE invoking `insert_error`, so when `insert_error` fails
(e.g. a three-qubit gate under the gate-and-qubit-specific policy) the
stream retains the gate opcode and the already-inserted global-noise
opcodes. -/
theorem C7_recording_error_streams (s : NSim) :
    (∀ opstr qs ps dag gc, exceptIsOk (stringToSupportOperationType opstr) = false →
      (NSim.load_opcode s opstr qs ps dag gc).1 = s ∧
        ((NSim.load_opcode s opstr qs ps dag gc).2).isSome = true) ∧
    (∀ q1 q2 q3 gc dag, s.policy = .gateSpecific →
      (∀ e ∈ s.noise, noiseTypeValid e.1 = true) →
      ((NSim.toffoli s q1 q2 q3 gc dag).2).isSome = true ∧
        (NSim.toffoli s q1 q2 q3 gc dag).1.opcodes =
          s.opcodes ++ mkGateOpcode .TOFFOLI [q1, q2, q3] [] dag gc ::
            globalNoiseOps s.noise [q1, q2, q3]) := by
  constructor
  · intro opstr qs ps dag gc hparse
    cases hp : stringToSupportOperationType opstr with
    | ok g => rw [hp] at hparse; exact absurd hparse (by simp [exceptIsOk])
    | error e => rw [NSim.load_opcode, hp]; exact ⟨rfl, rfl⟩
  · intro q1 q2 q3 gc dag hpol hval
    rw [NSim.toffoli, recordGate,
      insertError_gateSpecific_arity3
        ({ s with opcodes := s.opcodes ++ [mkGateOpcode .TOFFOLI [q1, q2, q3] [] dag gc] })
        [q1, q2, q3] .TOFFOLI hpol hval rfl]
    refine ⟨rfl, ?_⟩
    simp [globalNoiseOps]

/-- A small gate-and-qubit-specific simulator with one global bit-flip
channel, used to instantiate the C7 statement. -/
def c7sim : NSim := ⟨3, [(.BitFlip, 1/8)], [], [], [], [], [], [], .gateSpecific⟩

/-- C7 (witness): the amended recording-error statement instantiated at the
unknown gate name "FOO" and at a toffoli call on a gate-specific simulator
with one global noise channel. -/
theorem C7_recording_error_streams_witness :
    exceptIsOk (stringToSupportOperationType "FOO") = false ∧
      ((NSim.load_opcode c7sim "FOO" [0] [] false []).1 = c7sim ∧
        ((NSim.load_opcode c7sim "FOO" [0] [] false []).2).isSome = true) ∧
      (((NSim.toffoli c7sim 0 1 2 [] false).2).isSome = true ∧
        (NSim.toffoli c7sim 0 1 2 [] false).1.opcodes =
          c7sim.opcodes ++ mkGateOpcode .TOFFOLI [0, 1, 2] [] false [] ::
            globalNoiseOps c7sim.noise [0, 1, 2]) :=
  ⟨by decide,
    (C7_recording_error_streams c7sim).1 "FOO" [0] [] false [] (by decide),
    (C7_recording_error_streams c7sim).2 0 1 2 [] false rfl (by decide)⟩

/-- C5 (code_bug): replaying a recorded CNOT opcode ignores its
`global_controller` set and its `dagger` flag — the dispatcher calls
`simulator.cnot(qubits[0], qubits[1])` with the default empty controller
set and `is_dagger = false`, unlike every other gate arm.  On the state
`|001⟩` (only qubit 0 set) with recorded controller set `{2}`, replay flips
qubit 1 and produces `|011⟩`, even though the controller qubit 2 is in
`|0⟩`, where the spec-modelled controller-respecting CNOT leaves the state
unchanged. -/
theorem C5_cnot_replay_drops_controller :
    execOp pauliGateSet (fun v => v) 3
        ([c0, c1, c0, c0, c0, c0, c0, c0], [])
        ⟨.gate .CNOT, [0, 1], [], true, [2]⟩ =
      .ok ([c0, c0, c0, c1, c0, c0, c0, c0], []) ∧
    specCnot 0 1 [2] true [c0, c1, c0, c0, c0, c0, c0, c0] =
      [c0, c1, c0, c0, c0, c0, c0, c0] ∧
    ([c0, c0, c0, c1, c0, c0, c0, c0] : QState) ≠
      [c0, c1, c0, c0, c0, c0, c0, c0] := by
  decide

/-- C10: among the twenty recordable gate tags, a replayed opcode raises
(via the dispatcher's default `ThrowRuntimeError`) exactly when its tag is
IDENTITY, U22 or SWAP — the three tags `execute_once` has no case for —
and any `execute_once` whose stream reaches such an opcode (initialization
succeeded and the preceding opcodes executed without error) fails with the
default runtime-error. -/
theorem C10_replay_unsupported_tags :
    (∀ (gs : GateSet) (sqrtf : ℚ → ℚ) (n : ℕ) (acc : QState × List ℚ)
        (op : Opcode) (t : SupportOperationType), op.op = .gate t →
      (exceptIsOk (execOp gs sqrtf n acc op) = false ↔
        (t = .IDENTITY ∨ t = .U22 ∨ t = .SWAP))) ∧
    (∀ (gs : GateSet) (sqrtf : ℚ → ℚ) (rng : List ℚ) (s : NSim)
        (pre post : List Opcode) (op : Opcode) (t : SupportOperationType)
        (st0 : QState) (mid : QState × List ℚ),
      s.opcodes = pre ++ op :: post → op.op = .gate t →
      (t = .IDENTITY ∨ t = .U22 ∨ t = .SWAP) →
      initNQubit s.nqubit = .ok st0 →
      pre.foldlM (execOp gs sqrtf s.nqubit) (st0, rng) = .ok mid →
      executeOnce gs sqrtf rng s = .error "Failed to handle opcode.\nPlease check.") := by
  constructor
  · intro gs sqrtf n acc op t h
    cases t <;> simp [execOp, h, exceptIsOk]
  · intro gs sqrtf rng s pre post op t st0 mid hops hop hbad hinit hpre
    have herr : execOp gs sqrtf s.nqubit mid op =
        .error "Failed to handle opcode.\nPlease check." := by
      rcases hbad with rfl | rfl | rfl <;> simp [execOp, hop]
    rw [executeOnce, hinit, hops]
    simp [List.foldlM_append, hpre, herr, Except.instMonad, Except.bind]

/-- C10 (witness): the dispatch characterization instantiated at a recorded
SWAP opcode, and the `execute_once` failure on a one-qubit simulator whose
stream holds exactly that opcode. -/
theorem C10_replay_unsupported_tags_witness :
    ((⟨.gate .SWAP, [0, 1], [], false, []⟩ : Opcode).op = .gate .SWAP) ∧
      (exceptIsOk (execOp trivialGateSet (fun v => v) 1 ([c1, c0], [])
          ⟨.gate .SWAP, [0, 1], [], false, []⟩) = false ↔
        (SupportOperationType.SWAP = .IDENTITY ∨ SupportOperationType.SWAP = .U22 ∨
          SupportOperationType.SWAP = .SWAP)) ∧
      executeOnce trivialGateSet (fun v => v) []
          ⟨1, [], [], [], [], [], [], [⟨.gate .SWAP, [0, 1], [], false, []⟩], .global⟩ =
        .error "Failed to handle opcode.\nPlease check." :=
  ⟨rfl,
    (C10_replay_unsupported_tags).1 trivialGateSet (fun v => v) 1 ([c1, c0], [])
      ⟨.gate .SWAP, [0, 1], [], false, []⟩ .SWAP rfl,
    (C10_replay_unsupported_tags).2 trivialGateSet (fun v => v) []
      ⟨1, [], [], [], [], [], [], [⟨.gate .SWAP, [0, 1], [], false, []⟩], .global⟩
      [] [] ⟨.gate .SWAP, [0, 1], [], false, []⟩ .SWAP [c1, c0] ([c1, c0], [])
      rfl rfl (Or.inr (Or.inr rfl)) (by decide) rfl⟩

/-- The opcodes `_insert_gate_error1q` appends: the looked-up noise map for
`(gate, qubit)`, one opcode per entry, on the single qubit. -/
def gateError1qOps (s : NSim) (g : SupportOperationType) (q : ℕ) : List Opcode :=
  ((assocFind (g, q) s.gateError1q).getD []).map (fun e => mkNoiseOpcode e.1 [q] e.2)

/-- The opcodes the 2q-gate path of `_insert_gate_error2q` appends: the
looked-up noise map for `(gate, (q1, q2))`, one opcode per entry, on the
pair. -/
def gateError2qPairOps (s : NSim) (g : SupportOperationType) (q1 q2 : ℕ) :
    List Opcode :=
  ((assocFind (g, (q1, q2)) s.gateError2q).getD []).map
    (fun e => mkNoiseOpcode e.1 [q1, q2] e.2)

/-- The crosstalk opcodes the 1q-gate path of `_insert_gate_error2q`
appends from a given `gate_error2q` table: for every key `(g, (q, q2))`,
the key's whole noise map (one opcode per entry) on `{q, q2}`. -/
def crosstalkOpsFor (g : SupportOperationType) (q : ℕ)
    (l : List ((SupportOperationType × (ℕ × ℕ)) × List (NoiseType × ℚ))) :
    List Opcode :=
  (l.filter (fun e => e.1.1 == g && e.1.2.1 == q)).flatMap
    (fun e => e.2.map (fun tp => mkNoiseOpcode tp.1 [q, e.1.2.2] tp.2))

theorem gateError1qOps_opcodes_irrel (s : NSim) (l : List Opcode)
    (g : SupportOperationType) (q : ℕ) :
    gateError1qOps { s with opcodes := l } g q = gateError1qOps s g q := rfl

theorem gateError2qPairOps_opcodes_irrel (s : NSim) (l : List Opcode)
    (g : SupportOperationType) (q1 q2 : ℕ) :
    gateError2qPairOps { s with opcodes := l } g q1 q2 =
      gateError2qPairOps s g q1 q2 := rfl

theorem insertGateError1q_eq (s : NSim) (g : SupportOperationType) (q : ℕ) :
    insertGateError1q s g q = { s with opcodes := s.opcodes ++ gateError1qOps s g q } := by
  obtain ⟨n0, ns, gd, g1, g2, me, stv, ops, pol⟩ := s
  rw [insertGateError1q]
  split
  · rename_i hemp
    dsimp only at hemp
    subst hemp
    simp [gateError1qOps, assocFind]
  · split
    · rename_i m hm
      simp [gateError1qOps, hm, insertGenericError]
    · rename_i hm
      simp [gateError1qOps, hm]

theorem insertGateError2qCrossLoop_eq (g : SupportOperationType) (q : ℕ)
    (l : List ((SupportOperationType × (ℕ × ℕ)) × List (NoiseType × ℚ))) :
    ∀ s : NSim, insertGateError2qCrossLoop g q s l =
      { s with opcodes := s.opcodes ++ crosstalkOpsFor g q l } := by
  induction l with
  | nil => intro s; simp [insertGateError2qCrossLoop, crosstalkOpsFor]
  | cons e rest ih =>
    intro s
    rw [insertGateError2qCrossLoop]
    by_cases h : e.1.1 = g ∧ e.1.2.1 = q
    · rw [if_pos h, ih]
      simp [crosstalkOpsFor, insertGenericError, h.1, h.2]
    · rw [if_neg h, ih]
      have hb : (e.1.1 == g && e.1.2.1 == q) = false := by
        rcases not_and_or.mp h with hx | hx <;> simp [hx]
      simp [crosstalkOpsFor, hb]

theorem insertGateError2q_cross_eq (s : NSim) (g : SupportOperationType) (q : ℕ) :
    insertGateError2q s g q none =
      { s with opcodes := s.opcodes ++ crosstalkOpsFor g q s.gateError2q } := by
  obtain ⟨n0, ns, gd, g1, g2, me, stv, ops, pol⟩ := s
  rw [insertGateError2q.eq_def]
  split
  · rename_i hemp
    dsimp only at hemp
    subst hemp
    simp [crosstalkOpsFor]
  · exact insertGateError2qCrossLoop_eq g q _ _

theorem insertGateError2q_pair_eq (s : NSim) (g : SupportOperationType)
    (q1 q2 : ℕ) :
    insertGateError2q s g q1 (some q2) =
      { s with opcodes := s.opcodes ++ gateError2qPairOps s g q1 q2 } := by
  obtain ⟨n0, ns, gd, g1, g2, me, stv, ops, pol⟩ := s
  rw [insertGateError2q.eq_def]
  split
  · rename_i hemp
    dsimp only at hemp
    subst hemp
    simp [gateError2qPairOps, assocFind]
  · dsimp only
    split
    · rename_i m hm
      simp [gateError2qPairOps, hm, insertGenericError]
    · rename_i hm
      simp [gateError2qPairOps, hm]

/-- C4 (amended): under the gate-and-qubit-specific policy, `insert_error`
first appends the global-noise opcodes; then for an arity-1 gate on `q` it
appends the `gate_error_1q[(gate, q)]` opcodes on `{q}`, followed by, FOR
EACH `gate_error_2q` key `(gate, (q, q2))`, all of that key's noise-map
opcodes (one per noise-type entry — not a single opcode per key) on
`{q, q2}`; for an arity-2 gate on `(q1, q2)` it appends the
`gate_error_2q[(gate, (q1, q2))]` opcodes on `{q1, q2}`, then the
`gate_error_1q` entries for `q1` and then for `q2`; for any other arity it
raises the runtime-error (after the global-noise opcodes were already
appended). -/
theorem C4_insert_error_gate_specific (s : NSim) (g : SupportOperationType)
    (hpol : s.policy = .gateSpecific)
    (hval : ∀ e ∈ s.noise, noiseTypeValid e.1 = true) :
    (∀ q : ℕ, gateQubitCount g = 1 →
      insertError s [q] g =
        ({ s with opcodes := s.opcodes ++ globalNoiseOps s.noise [q] ++
            gateError1qOps s g q ++ crosstalkOpsFor g q s.gateError2q }, none)) ∧
    (∀ q1 q2 : ℕ, gateQubitCount g = 2 →
      insertError s [q1, q2] g =
        ({ s with opcodes := s.opcodes ++ globalNoiseOps s.noise [q1, q2] ++
            gateError2qPairOps s g q1 q2 ++ gateError1qOps s g q1 ++
            gateError1qOps s g q2 }, none)) ∧
    (∀ qs : List ℕ, gateQubitCount g ≠ 1 → gateQubitCount g ≠ 2 →
      insertError s qs g =
        ({ s with opcodes := s.opcodes ++ globalNoiseOps s.noise qs },
          some "[Fatal] Error type and gate qubit count is not correctly specified, which is not as expected.")) := by
  refine ⟨?_, ?_, ?_⟩
  · intro q h1
    rw [insertError]
    nth_rewrite 1 [hpol]
    dsimp only
    rw [insertGlobalError_valid s [q] hval]
    dsimp only
    rw [h1]
    simp only [insertGateError1q_eq, insertGateError2q_cross_eq,
      gateError1qOps_opcodes_irrel]
    simp [List.append_assoc]
  · intro q1 q2 h2
    rw [insertError]
    nth_rewrite 1 [hpol]
    dsimp only
    rw [insertGlobalError_valid s [q1, q2] hval]
    dsimp only
    rw [h2]
    simp only [insertGateError2q_pair_eq, insertGateError1q_eq,
      gateError1qOps_opcodes_irrel, gateError2qPairOps_opcodes_irrel]
    simp [List.append_assoc]
  · intro qs h1 h2
    rw [insertError]
    nth_rewrite 1 [hpol]
    dsimp only
    rw [insertGlobalError_valid s qs hval]
    dsimp only
    rcases hgc : gateQubitCount g with - | - | - | k
    · rfl
    · exact absurd hgc h1
    · exact absurd hgc h2
    · rfl

/-- A gate-and-qubit-specific simulator whose `gate_error_2q` table has a
single crosstalk key `(X, (0, 1))` carrying TWO noise entries. -/
def c4sim : NSim :=
  ⟨2, [], [], [], [((.X, (0, 1)), [(.BitFlip, 1/10), (.PhaseFlip, 1/5)])],
    [], [], [], .gateSpecific⟩

/-- C4 (counterexample to the claim as stated): for an arity-1 gate the
claim promises ONE crosstalk opcode per matching `gate_error_2q` key; but
with a single matching key carrying two noise entries the code appends TWO
crosstalk opcodes (one per entry of the key's noise map), both on the pair
`{0, 1}`. -/
theorem C4_crosstalk_per_entry_counterexample :
    ((insertError c4sim [0] .X).1.opcodes).length = 2 ∧
      ((insertError c4sim [0] .X).1.opcodes).map (fun o => o.op) =
        [.noise .BitFlip, .noise .PhaseFlip] ∧
      ((insertError c4sim [0] .X).1.opcodes).map (fun o => o.qubits) =
        [[0, 1], [0, 1]] ∧
      (insertError c4sim [0] .X).2 = none := by
  decide

/-- C4 (witness): the amended gate-specific insertion statement
instantiated at `c4sim` for the arity-1 gate X on qubit 0, the arity-2 gate
CNOT on (0, 1), and the arity-3 TOFFOLI. -/
theorem C4_insert_error_gate_specific_witness :
    c4sim.policy = .gateSpecific ∧
      (∀ e ∈ c4sim.noise, noiseTypeValid e.1 = true) ∧
      gateQubitCount SupportOperationType.X = 1 ∧
      insertError c4sim [0] .X =
        ({ c4sim with opcodes := c4sim.opcodes ++ globalNoiseOps c4sim.noise [0] ++
            gateError1qOps c4sim .X 0 ++ crosstalkOpsFor .X 0 c4sim.gateError2q }, none) ∧
      gateQubitCount SupportOperationType.CNOT = 2 ∧
      insertError c4sim [0, 1] .CNOT =
        ({ c4sim with opcodes := c4sim.opcodes ++ globalNoiseOps c4sim.noise [0, 1] ++
            gateError2qPairOps c4sim .CNOT 0 1 ++ gateError1qOps c4sim .CNOT 0 ++
            gateError1qOps c4sim .CNOT 1 }, none) ∧
      gateQubitCount SupportOperationType.TOFFOLI ≠ 1 ∧
      gateQubitCount SupportOperationType.TOFFOLI ≠ 2 ∧
      insertError c4sim [0, 1, 2] .TOFFOLI =
        ({ c4sim with opcodes := c4sim.opcodes ++ globalNoiseOps c4sim.noise [0, 1, 2] },
          some "[Fatal] Error type and gate qubit count is not correctly specified, which is not as expected.") :=
  ⟨rfl, by decide, rfl,
    (C4_insert_error_gate_specific c4sim .X rfl (by decide)).1 0 rfl,
    rfl,
    (C4_insert_error_gate_specific c4sim .CNOT rfl (by decide)).2.1 0 1 rfl,
    by decide, by decide,
    (C4_insert_error_gate_specific c4sim .TOFFOLI rfl (by decide)).2.2 [0, 1, 2]
      (by decide) (by decide)⟩

theorem absSq_smulQ (c : ℚ) (z : CQ) : absSq (smulQ c z) = c ^ 2 * absSq z := by
  simp only [absSq, smulQ]
  ring

/-- If bit `q` of `j` is clear and `j < 2^n` with `q < n`, setting bit `q`
stays below `2^n`. -/
theorem add_two_pow_lt_of_testBit_false {j q n : ℕ} (hq : q < n) (hj : j < 2 ^ n)
    (hbit : j.testBit q = false) : j + 2 ^ q < 2 ^ n := by
  have hd : j / 2 ^ q % 2 = 0 := by
    have h := Nat.testBit_to_div_mod (x := j) (i := q)
    rw [hbit] at h
    have h2 : ¬ (j / 2 ^ q % 2 = 1) := by
      intro hc
      rw [hc] at h
      simp at h
    omega
  have e3 : j / 2 ^ q = 2 * (j / 2 ^ (q + 1)) := by
    have hdm := Nat.div_add_mod (j / 2 ^ q) 2
    rw [Nat.div_div_eq_div_mul, ← Nat.pow_succ] at hdm
    simp only [Nat.succ_eq_add_one] at hdm
    omega
  have e1 := Nat.div_add_mod j (2 ^ q)
  have e2 : j % 2 ^ q < 2 ^ q := Nat.mod_lt _ (Nat.two_pow_pos q)
  have e6 : 2 ^ (q + 1) * 2 ^ (n - q - 1) = 2 ^ n := by
    rw [← pow_add]
    congr 1
    omega
  have e5 : j / 2 ^ (q + 1) < 2 ^ (n - q - 1) :=
    Nat.div_lt_of_lt_mul (by rw [e6]; exact hj)
  have key : 2 ^ (q + 1) * (j / 2 ^ (q + 1)) + j % 2 ^ q = j := by
    have ha : (2 : ℕ) ^ (q + 1) * (j / 2 ^ (q + 1)) = 2 ^ q * (j / 2 ^ q) := by
      rw [e3, pow_succ]
      ring
    linarith [e1, ha]
  have hpq : (2 : ℕ) ^ (q + 1) = 2 ^ q + 2 ^ q := by
    rw [pow_succ]
    ring
  have last : 2 ^ (q + 1) * (j / 2 ^ (q + 1)) + 2 ^ (q + 1) ≤ 2 ^ n := by
    have hstep := Nat.mul_le_mul_left (2 ^ (q + 1)) (Nat.succ_le_of_lt e5)
    rw [Nat.mul_succ, e6] at hstep
    linarith [hstep]
  linarith [key, e2, last]

/-- If bit `q` of `i` is set, clearing it by subtraction yields a clear
bit. -/
theorem testBit_sub_two_pow_false {i q : ℕ} (hbit : i.testBit q = true) :
    (i - 2 ^ q).testBit q = false := by
  have hge : 2 ^ q ≤ i := Nat.testBit_implies_ge hbit
  have hsplit : 2 ^ q + (i - 2 ^ q) = i := by omega
  rw [← hsplit, Nat.testBit_two_pow_add_eq] at hbit
  simpa using hbit

/-- If bit `q` of `j` is clear, setting it by addition yields a set bit. -/
theorem testBit_add_two_pow_true {j q : ℕ} (hbit : j.testBit q = false) :
    (j + 2 ^ q).testBit q = true := by
  rw [Nat.add_comm, Nat.testBit_two_pow_add_eq, hbit]
  rfl

/-- The claim's decay-branch sum: `Σ_{i < 2^n, bit q of i set} |ψ[i]|²`. -/
def s1Sum (n qn : ℕ) (st : QState) : ℚ :=
  ∑ i ∈ (Finset.range (2 ^ n)).filter (fun i => i.testBit qn),
    absSq (st.getD i c0)

/-- The code's no-decay companion sum: `Σ_{i < 2^n, bit q of i set}
|ψ[i - 2^q]|²` (the amplitudes of the paired bit-clear indices). -/
def s0Sum (n qn : ℕ) (st : QState) : ℚ :=
  ∑ i ∈ (Finset.range (2 ^ n)).filter (fun i => i.testBit qn),
    absSq (st.getD (i - 2 ^ qn) c0)

theorem foldl_pair_range (f g : ℕ → ℚ) (P : ℕ → Bool) (m : ℕ) :
    ∀ a b : ℚ, (List.range m).foldl
        (fun acc i => if P i then (acc.1 + f i, acc.2 + g i) else acc) (a, b) =
      (a + ∑ i ∈ (Finset.range m).filter (fun i => P i), f i,
        b + ∑ i ∈ (Finset.range m).filter (fun i => P i), g i) := by
  induction m with
  | zero => intro a b; simp
  | succ k ih =>
    intro a b
    rw [List.range_succ, List.foldl_append, ih]
    by_cases hP : P k
    · simp only [List.foldl_cons, List.foldl_nil, hP, if_pos]
      rw [Finset.range_succ, Finset.filter_insert, if_pos hP,
        Finset.sum_insert (by simp), Finset.sum_insert (by simp)]
      refine Prod.ext ?_ ?_ <;> dsimp only <;> ring
    · simp only [List.foldl_cons, List.foldl_nil, hP, if_neg, if_false,
        Bool.false_eq_true]
      rw [Finset.range_succ, Finset.filter_insert, if_neg (by simp [hP])]

theorem dampingAccum_eq (sqrtf : ℚ → ℚ) (n qn : ℕ) (p : ℚ) (st : QState) :
    dampingAccum sqrtf n qn p st =
      ((sqrtf (1 - p)) ^ 2 * s1Sum n qn st + s0Sum n qn st,
        (sqrtf p) ^ 2 * s1Sum n qn st) := by
  rw [dampingAccum,
    foldl_pair_range
      (fun i => absSq (smulQ (sqrtf (1 - p)) (st.getD i c0)) +
        absSq (st.getD (i - 2 ^ qn) c0))
      (fun i => absSq (smulQ (sqrtf p) (st.getD i c0)))
      (fun i => i.testBit qn) (2 ^ n) 0 0]
  refine Prod.ext ?_ ?_ <;> dsimp only
  · rw [zero_add, Finset.sum_add_distrib, s1Sum, s0Sum, Finset.mul_sum]
    congr 1
    exact Finset.sum_congr rfl (fun i _ => absSq_smulQ _ _)
  · rw [zero_add, s1Sum, Finset.mul_sum]
    exact Finset.sum_congr rfl (fun i _ => absSq_smulQ _ _)

theorem sumAbsSq_foldl_aux (st : QState) :
    ∀ a : ℚ, st.foldl (fun acc z => acc + absSq z) a = a + (st.map absSq).sum := by
  induction st with
  | nil => intro a; simp
  | cons z rest ih =>
    intro a
    rw [List.foldl_cons, ih]
    simp [add_assoc]

theorem map_absSq_sum_eq (st : QState) :
    (st.map absSq).sum = ∑ i ∈ Finset.range st.length, absSq (st.getD i c0) := by
  induction st with
  | nil => simp
  | cons z rest ih =>
    rw [List.map_cons, List.sum_cons, ih]
    rw [List.length_cons, Finset.sum_range_succ']
    simp [add_comm]

theorem sumAbsSq_eq_sum (st : QState) :
    sumAbsSq st = ∑ i ∈ Finset.range st.length, absSq (st.getD i c0) := by
  rw [sumAbsSq, sumAbsSq_foldl_aux, zero_add, map_absSq_sum_eq]

/-- Reindexing the decay-companion sum: summing `|ψ[i - 2^q]|²` over
bit-set indices equals summing `|ψ[j]|²` over bit-clear indices. -/
theorem s0Sum_eq_clear_sum (n qn : ℕ) (hq : qn < n) (st : QState) :
    s0Sum n qn st =
      ∑ j ∈ (Finset.range (2 ^ n)).filter (fun j => ¬ j.testBit qn),
        absSq (st.getD j c0) := by
  rw [s0Sum]
  refine Finset.sum_nbij' (fun i => i - 2 ^ qn) (fun j => j + 2 ^ qn)
    ?_ ?_ ?_ ?_ ?_
  · intro a ha
    rw [Finset.mem_filter, Finset.mem_range] at ha ⊢
    exact ⟨lt_of_le_of_lt (Nat.sub_le a (2 ^ qn)) ha.1,
      by simp [testBit_sub_two_pow_false ha.2]⟩
  · intro b hb
    rw [Finset.mem_filter, Finset.mem_range] at hb ⊢
    refine ⟨add_two_pow_lt_of_testBit_false hq hb.1 (by simpa using hb.2), ?_⟩
    exact testBit_add_two_pow_true (by simpa using hb.2)
  · intro a ha
    rw [Finset.mem_filter] at ha
    have := Nat.testBit_implies_ge ha.2
    dsimp only
    omega
  · intro b hb
    dsimp only
    omega
  · intro a ha
    rfl

/-- The two accumulated probabilities add up to the squared norm of the
state. -/
theorem dampingAccum_total (sqrtf : ℚ → ℚ) (n qn : ℕ) (p : ℚ) (st : QState)
    (hq : qn < n) (hlen : st.length = 2 ^ n)
    (hsqp : (sqrtf p) ^ 2 = p) (hsq1p : (sqrtf (1 - p)) ^ 2 = 1 - p) :
    (dampingAccum sqrtf n qn p st).1 + (dampingAccum sqrtf n qn p st).2 =
      sumAbsSq st := by
  rw [dampingAccum_eq, hsqp, hsq1p]
  dsimp only
  rw [sumAbsSq_eq_sum, hlen, s0Sum_eq_clear_sum n qn hq]
  have hsplit := Finset.sum_filter_add_sum_filter_not (Finset.range (2 ^ n))
    (fun i => i.testBit qn) (fun i => absSq (st.getD i c0))
  rw [s1Sum]
  linarith [hsplit]

theorem getD_set_self (l : List CQ) (a : CQ) {i : ℕ} (h : i < l.length) :
    (l.set i a).getD i c0 = a := by
  simp [List.getD_eq_getElem?_getD, List.getElem?_set_self h]

theorem getD_set_ne (l : List CQ) (a : CQ) {i j : ℕ} (h : i ≠ j) :
    (l.set i a).getD j c0 = l.getD j c0 := by
  simp [List.getD_eq_getElem?_getD, List.getElem?_set_ne h]

/-- What the decay loop produces, index by index: bit-set indices are
zeroed, bit-clear indices receive the amplitude of their bit-set
partner. -/
def dampingDecayClosed (n qn : ℕ) (st : QState) : QState :=
  List.ofFn (fun i : Fin (2 ^ n) =>
    if (i : ℕ).testBit qn then c0 else st.getD ((i : ℕ) + 2 ^ qn) c0)

/-- What the scaling loop produces, index by index: bit-set indices are
scaled by `sqrt(1 - p)`, bit-clear indices are untouched. -/
def dampingScaleClosed (sqrtf : ℚ → ℚ) (n qn : ℕ) (p : ℚ) (st : QState) :
    QState :=
  List.ofFn (fun i : Fin (2 ^ n) =>
    if (i : ℕ).testBit qn then smulQ (sqrtf (1 - p)) (st.getD (i : ℕ) c0)
    else st.getD (i : ℕ) c0)

theorem dampingDecay_fold_invariant (n qn : ℕ) (st : QState)
    (hlen : st.length = 2 ^ n) :
    ∀ m, m ≤ 2 ^ n →
      ((List.range m).foldl
          (fun s i =>
            if i.testBit qn then (s.set (i - 2 ^ qn) (s.getD i c0)).set i c0
            else s) st).length = 2 ^ n ∧
        ∀ j, ((List.range m).foldl
            (fun s i =>
              if i.testBit qn then (s.set (i - 2 ^ qn) (s.getD i c0)).set i c0
              else s) st).getD j c0 =
          if j.testBit qn then (if j < m then c0 else st.getD j c0)
          else (if j + 2 ^ qn < m then st.getD (j + 2 ^ qn) c0 else st.getD j c0) := by
  intro m
  induction m with
  | zero =>
    intro _
    simp [hlen]
  | succ k ih =>
    intro hm1
    obtain ⟨ihl, ihg⟩ := ih (Nat.le_of_succ_le hm1)
    have hklen : k < 2 ^ n := hm1
    rw [List.range_succ, List.foldl_append, List.foldl_cons, List.foldl_nil]
    set A := (List.range k).foldl
      (fun s i =>
        if i.testBit qn then (s.set (i - 2 ^ qn) (s.getD i c0)).set i c0
        else s) st with hA
    by_cases hbk : k.testBit qn
    · rw [if_pos hbk]
      have hge : 2 ^ qn ≤ k := Nat.testBit_implies_ge hbk
      have hlen1 : ∀ v : CQ, (A.set (k - 2 ^ qn) v).length = 2 ^ n := by
        intro v
        rw [List.length_set, ihl]
      refine ⟨by rw [List.length_set, hlen1], ?_⟩
      intro j
      by_cases hjk : j = k
      · subst hjk
        have hb1 : j < (A.set (j - 2 ^ qn) (A.getD j c0)).length := by
          rw [hlen1]
          exact hklen
        rw [getD_set_self _ _ hb1, if_pos hbk, if_pos (Nat.lt_succ_self j)]
      · rw [getD_set_ne _ _ (fun h => hjk h.symm)]
        by_cases hjk2 : j = k - 2 ^ qn
        · subst hjk2
          have hb2 : k - 2 ^ qn < A.length := by
            rw [ihl]
            exact lt_of_le_of_lt (Nat.sub_le k (2 ^ qn)) hklen
          have hsub : k - 2 ^ qn + 2 ^ qn = k := Nat.sub_add_cancel hge
          rw [getD_set_self _ _ hb2, ihg k, if_pos hbk, if_neg (lt_irrefl k)]
          have hbj : (k - 2 ^ qn).testBit qn = false := testBit_sub_two_pow_false hbk
          rw [if_neg (by simp [hbj]), if_pos (by rw [hsub]; exact Nat.lt_succ_self k), hsub]
        · rw [getD_set_ne _ _ (fun h => hjk2 h.symm), ihg j]
          by_cases hbj : j.testBit qn
          · rw [if_pos hbj, if_pos hbj]
            by_cases h1 : j < k
            · rw [if_pos h1, if_pos (by omega)]
            · rw [if_neg h1, if_neg (by omega)]
          · rw [if_neg hbj, if_neg hbj]
            by_cases h2 : j + 2 ^ qn < k
            · rw [if_pos h2, if_pos (Nat.lt_succ_of_lt h2)]
            · have h3 : ¬ j + 2 ^ qn < k + 1 := by
                intro hc
                rcases Nat.lt_succ_iff_lt_or_eq.mp hc with h | h
                · exact h2 h
                · exact hjk2 (Nat.eq_sub_of_add_eq h)
              rw [if_neg h2, if_neg h3]
    · rw [if_neg hbk]
      refine ⟨ihl, ?_⟩
      intro j
      rw [ihg j]
      by_cases hbj : j.testBit qn
      · rw [if_pos hbj, if_pos hbj]
        by_cases h1 : j < k
        · rw [if_pos h1, if_pos (by omega)]
        · have hne : j ≠ k := by
            intro h
            subst h
            exact hbk hbj
          rw [if_neg h1, if_neg (by omega)]
      · rw [if_neg hbj, if_neg hbj]
        by_cases h2 : j + 2 ^ qn < k
        · rw [if_pos h2, if_pos (Nat.lt_succ_of_lt h2)]
        · have hne : j + 2 ^ qn ≠ k := by
            intro h
            have hb := testBit_add_two_pow_true (Bool.not_eq_true _ |>.mp hbj)
            rw [h] at hb
            exact hbk hb
          have h3 : ¬ j + 2 ^ qn < k + 1 := by
            intro hc
            rcases Nat.lt_succ_iff_lt_or_eq.mp hc with h | h
            · exact h2 h
            · exact hne h
          rw [if_neg h2, if_neg h3]

theorem getD_eq_getElem_of_lt (l : List CQ) {i : ℕ} (h : i < l.length) :
    l.getD i c0 = l[i] := by
  simp [List.getD_eq_getElem?_getD, List.getElem?_eq_getElem h]

theorem dampingDecay_eq (n qn : ℕ) (hq : qn < n) (st : QState)
    (hlen : st.length = 2 ^ n) :
    dampingDecay n qn st = dampingDecayClosed n qn st := by
  obtain ⟨hl, hg⟩ := dampingDecay_fold_invariant n qn st hlen (2 ^ n) (le_refl _)
  have hl2 : (dampingDecay n qn st).length = 2 ^ n := hl
  have hlc : (dampingDecayClosed n qn st).length = 2 ^ n := by
    rw [dampingDecayClosed, List.length_ofFn]
  apply List.ext_getElem
  · rw [hl2, hlc]
  · intro i h1 h2
    have hi : i < 2 ^ n := by
      rw [hl2] at h1
      exact h1
    have hg2 : (dampingDecay n qn st).getD i c0 =
        if i.testBit qn then (if i < 2 ^ n then c0 else st.getD i c0)
        else (if i + 2 ^ qn < 2 ^ n then st.getD (i + 2 ^ qn) c0
          else st.getD i c0) := hg i
    have hofn : (dampingDecayClosed n qn st).getD i c0 =
        if i.testBit qn then c0 else st.getD (i + 2 ^ qn) c0 := by
      rw [getD_eq_getElem_of_lt _ (by rw [hlc]; exact hi)]
      simp [dampingDecayClosed, List.getElem_ofFn]
    rw [← getD_eq_getElem_of_lt _ h1, ← getD_eq_getElem_of_lt _ h2, hg2, hofn]
    by_cases hbj : i.testBit qn
    · rw [if_pos hbj, if_pos hbj, if_pos hi]
    · rw [if_neg hbj, if_neg hbj,
        if_pos (add_two_pow_lt_of_testBit_false hq hi (Bool.not_eq_true _ |>.mp hbj))]

theorem dampingScale_fold_invariant (sqrtf : ℚ → ℚ) (n qn : ℕ) (p : ℚ)
    (st : QState) (hlen : st.length = 2 ^ n) :
    ∀ m, m ≤ 2 ^ n →
      ((List.range m).foldl
          (fun s i =>
            if i.testBit qn then s.set i (smulQ (sqrtf (1 - p)) (s.getD i c0))
            else s) st).length = 2 ^ n ∧
        ∀ j, ((List.range m).foldl
            (fun s i =>
              if i.testBit qn then s.set i (smulQ (sqrtf (1 - p)) (s.getD i c0))
              else s) st).getD j c0 =
          if j.testBit qn ∧ j < m then smulQ (sqrtf (1 - p)) (st.getD j c0)
          else st.getD j c0 := by
  intro m
  induction m with
  | zero =>
    intro _
    simp [hlen]
  | succ k ih =>
    intro hm1
    obtain ⟨ihl, ihg⟩ := ih (Nat.le_of_succ_le hm1)
    have hklen : k < 2 ^ n := hm1
    rw [List.range_succ, List.foldl_append, List.foldl_cons, List.foldl_nil]
    set A := (List.range k).foldl
      (fun s i =>
        if i.testBit qn then s.set i (smulQ (sqrtf (1 - p)) (s.getD i c0))
        else s) st with hA
    by_cases hbk : k.testBit qn
    · rw [if_pos hbk]
      refine ⟨by rw [List.length_set, ihl], ?_⟩
      intro j
      by_cases hjk : j = k
      · subst hjk
        have hb1 : j < A.length := by
          rw [ihl]
          exact hklen
        rw [getD_set_self _ _ hb1, ihg j,
          if_neg (by intro hc; exact absurd hc.2 (lt_irrefl j)),
          if_pos ⟨hbk, Nat.lt_succ_self j⟩]
      · rw [getD_set_ne _ _ (fun h => hjk h.symm), ihg j]
        by_cases hc1 : j.testBit qn ∧ j < k
        · rw [if_pos hc1, if_pos ⟨hc1.1, by omega⟩]
        · have hc2 : ¬ (j.testBit qn ∧ j < k + 1) := by
            intro hc
            rcases Nat.lt_succ_iff_lt_or_eq.mp hc.2 with h | h
            · exact hc1 ⟨hc.1, h⟩
            · exact hjk h
          rw [if_neg hc1, if_neg hc2]
    · rw [if_neg hbk]
      refine ⟨ihl, ?_⟩
      intro j
      rw [ihg j]
      by_cases hc1 : j.testBit qn ∧ j < k
      · rw [if_pos hc1, if_pos ⟨hc1.1, by omega⟩]
      · have hc2 : ¬ (j.testBit qn ∧ j < k + 1) := by
          intro hc
          rcases Nat.lt_succ_iff_lt_or_eq.mp hc.2 with h | h
          · exact hc1 ⟨hc.1, h⟩
          · subst h
            exact hbk hc.1
        rw [if_neg hc1, if_neg hc2]

theorem dampingScale_eq (sqrtf : ℚ → ℚ) (n qn : ℕ) (p : ℚ) (st : QState)
    (hlen : st.length = 2 ^ n) :
    dampingScale sqrtf n qn p st = dampingScaleClosed sqrtf n qn p st := by
  obtain ⟨hl, hg⟩ :=
    dampingScale_fold_invariant sqrtf n qn p st hlen (2 ^ n) (le_refl _)
  have hl2 : (dampingScale sqrtf n qn p st).length = 2 ^ n := hl
  have hlc : (dampingScaleClosed sqrtf n qn p st).length = 2 ^ n := by
    rw [dampingScaleClosed, List.length_ofFn]
  apply List.ext_getElem
  · rw [hl2, hlc]
  · intro i h1 h2
    have hi : i < 2 ^ n := by
      rw [hl2] at h1
      exact h1
    have hg2 : (dampingScale sqrtf n qn p st).getD i c0 =
        if i.testBit qn ∧ i < 2 ^ n then smulQ (sqrtf (1 - p)) (st.getD i c0)
        else st.getD i c0 := hg i
    have hofn : (dampingScaleClosed sqrtf n qn p st).getD i c0 =
        if i.testBit qn then smulQ (sqrtf (1 - p)) (st.getD i c0)
        else st.getD i c0 := by
      rw [getD_eq_getElem_of_lt _ (by rw [hlc]; exact hi)]
      simp [dampingScaleClosed, List.getElem_ofFn]
    rw [← getD_eq_getElem_of_lt _ h1, ← getD_eq_getElem_of_lt _ h2, hg2, hofn]
    by_cases hbj : i.testBit qn
    · rw [if_pos ⟨hbj, hi⟩, if_pos hbj]
    · rw [if_neg (by intro hc; exact hbj hc.1), if_neg hbj]

/-- The amended C1 behaviour of the amplitude-damping channel, stated in
the claim's terms: the computed decay probability is
`p1 = p · Σ_{bit q set} |ψ[i]|²`; the computed no-decay probability is the
Kraus sum `p0 = (1-p) · Σ_{bit q set} |ψ[i]|² + Σ_{bit q set} |ψ[i-2^q]|²`
(NOT `1 - p1`: the two agree only on normalized states); the runtime-error
fires iff `|p0 + p1 - 1| > 1e-10`, which — since `p0 + p1 = Σ|ψ[i]|²` —
means iff the squared norm deviates from 1 by more than `1e-10`; otherwise
`r < p1` selects the decay branch (`ψ[i0] ← ψ[i1], ψ[i1] ← 0` pairwise)
and the other branch scales every bit-set amplitude by `√(1-p)`, each
followed by renormalization. -/
def dampingSpecC1 (sqrtf : ℚ → ℚ) (n qn : ℕ) (p r : ℚ) (st : QState) : Prop :=
  (dampingAccum sqrtf n qn p st).2 = p * s1Sum n qn st ∧
  (dampingAccum sqrtf n qn p st).1 = (1 - p) * s1Sum n qn st + s0Sum n qn st ∧
  (dampingAccum sqrtf n qn p st).1 + (dampingAccum sqrtf n qn p st).2 = sumAbsSq st ∧
  (exceptIsOk (damping sqrtf n qn p r st) = false ↔ |sumAbsSq st - 1| > eps10) ∧
  (|sumAbsSq st - 1| ≤ eps10 → r < p * s1Sum n qn st →
    damping sqrtf n qn p r st = .ok (normalize sqrtf (dampingDecayClosed n qn st))) ∧
  (|sumAbsSq st - 1| ≤ eps10 → ¬ r < p * s1Sum n qn st →
    damping sqrtf n qn p r st = .ok (normalize sqrtf (dampingScaleClosed sqrtf n qn p st)))

/-- C1 (amended): for every state of `2^n` amplitudes, qubit `q < n` and a
square-root function exact at `p` and `1 - p`, the damping channel
satisfies `dampingSpecC1`: `p1 = p·Σ_{bit q}|ψ[i]|²` as the claim states,
but `p0` is the Kraus sum (equal to `1 - p1` only on normalized states)
and the runtime-error fires iff the squared norm deviates from 1 by more
than `1e-10`; the two branches and the final renormalization are as the
claim states them. -/
theorem C1_damping_characterization (sqrtf : ℚ → ℚ) (n qn : ℕ) (p r : ℚ)
    (st : QState) (hq : qn < n) (hlen : st.length = 2 ^ n)
    (hsqp : (sqrtf p) ^ 2 = p) (hsq1p : (sqrtf (1 - p)) ^ 2 = 1 - p) :
    dampingSpecC1 sqrtf n qn p r st := by
  have hacc := dampingAccum_eq sqrtf n qn p st
  have h2 : (dampingAccum sqrtf n qn p st).2 = p * s1Sum n qn st := by
    rw [hacc]
    dsimp only
    rw [hsqp]
  have h1 : (dampingAccum sqrtf n qn p st).1 =
      (1 - p) * s1Sum n qn st + s0Sum n qn st := by
    rw [hacc]
    dsimp only
    rw [hsq1p]
  have htot := dampingAccum_total sqrtf n qn p st hq hlen hsqp hsq1p
  refine ⟨h2, h1, htot, ?_, ?_, ?_⟩
  · rw [damping, htot]
    by_cases hc : |sumAbsSq st - 1| > eps10
    · rw [if_pos hc]
      simp [exceptIsOk, hc]
    · rw [if_neg hc]
      by_cases hr : r < (dampingAccum sqrtf n qn p st).2
      · rw [if_pos hr]
        simp [exceptIsOk, hc]
      · rw [if_neg hr]
        simp [exceptIsOk, hc]
  · intro hle hr
    rw [damping, htot, if_neg (not_lt.mpr hle), if_pos (by rw [h2]; exact hr),
      dampingDecay_eq n qn hq st hlen]
  · intro hle hr
    rw [damping, htot, if_neg (not_lt.mpr hle), if_neg (by rw [h2]; exact hr),
      dampingScale_eq sqrtf n qn p st hlen]

/-- A concrete stand-in for `std::sqrt`, exact on the values the C1
instances need (`9/25`, `16/25`, `1`). -/
def c1sqrt : ℚ → ℚ := fun x =>
  if x = 9/25 then 3/5 else if x = 16/25 then 4/5 else if x = 1 then 1 else 0

/-- C1 (witness): the amended damping characterization instantiated at
`n = 1`, qubit 0, `p = 9/25`, `r = 1/5` on the normalized state `|1⟩`. -/
theorem C1_damping_characterization_witness :
    ((0 : ℕ) < 1 ∧ ([c0, c1] : QState).length = 2 ^ 1 ∧
      (c1sqrt (9/25)) ^ 2 = 9/25 ∧ (c1sqrt (1 - 9/25)) ^ 2 = 1 - 9/25) ∧
      dampingSpecC1 c1sqrt 1 0 (9/25) (1/5) [c0, c1] :=
  ⟨⟨by norm_num, rfl, by norm_num [c1sqrt], by norm_num [c1sqrt]⟩,
    C1_damping_characterization c1sqrt 1 0 (9/25) (1/5) [c0, c1] (by norm_num)
      rfl (by norm_num [c1sqrt]) (by norm_num [c1sqrt])⟩

/-- C1 (counterexample to the claim as stated): the claim defines
`p0 = 1 - p1`, which makes its error condition `|p0 + p1 - 1| > 1e-10`
identically false — yet on the all-zero (unnormalized) two-amplitude state
the code DOES raise the runtime-error, because its `p0` is the Kraus sum
and `p0 + p1 = 0` there. -/
theorem C1_damping_error_iff_counterexample :
    exceptIsOk (damping c1sqrt 1 0 (1/2) 0 [c0, c0]) = false ∧
      |(1 - (1/2) * s1Sum 1 0 [c0, c0]) + (1/2) * s1Sum 1 0 [c0, c0] - 1| ≤ eps10 := by
  have ht0 : Nat.testBit 0 0 = false := rfl
  have ht1 : Nat.testBit 1 0 = true := rfl
  constructor
  · have hS1 : s1Sum 1 0 [c0, c0] = 0 := by
      simp [s1Sum, Finset.sum_filter, Finset.sum_range_succ, ht0, ht1, absSq, c0]
    have hS0 : s0Sum 1 0 [c0, c0] = 0 := by
      simp [s0Sum, Finset.sum_filter, Finset.sum_range_succ, ht0, ht1, absSq, c0]
    rw [damping, dampingAccum_eq]
    dsimp only
    rw [hS1, hS0]
    norm_num [eps10, exceptIsOk]
  · have hz : ∀ x : ℚ, (1 - x) + x - 1 = 0 := by
      intro x
      ring
    rw [hz]
    norm_num [eps10]

end QPandaLite
